import Mathlib

/-!
# Verification of the yr-wfc location-identity and caching subsystem

This file gives a shallow embedding, in Lean 4, of the location identity
resolver, the favorites store, the generic TTL cache, the graph cache and
the shared HTTP retry helper of the yr-wfc Raycast extension, together with
theorems checking the natural-language specification against that embedding.

Modelling conventions:
* JavaScript numbers are modelled as `ℚ` (the claims under study never
  depend on float rounding; `toFixed(3)` is modelled by exact rational
  rounding with the ECMA tie-break "pick the larger n").
* The Raycast `LocalStorage` is modelled as an association list
  `Store := List (String × RawValue)`; a stored raw string either is the
  JSON serialization of a `Json` value (`RawValue.json j`, on which
  `JSON.parse` succeeds and returns `j`) or is garbage on which
  `JSON.parse` throws (`RawValue.garbage s`).
* `async/await` sequencing is modelled by explicit state passing; the
  current clock (`Date.now()`) is an explicit parameter.
* Code that catches exceptions internally is modelled with `Except`/`Option`
  made explicit at the throw site and handled where the `catch` sits.
-/

set_option autoImplicit false

/-! ## JavaScript-flavoured string primitives (modelled on `List Char`) -/

/-- Is `p` a (list) prefix of `l`?  Models JS `String.prototype.startsWith`. -/
def isPrefixList : List Char → List Char → Bool
  | [], _ => true
  | _ :: _, [] => false
  | p :: ps, c :: cs => p = c && isPrefixList ps cs

/-- Models JS `s.startsWith(pre)`. -/
def jsStartsWith (s pre : String) : Bool :=
  isPrefixList pre.data s.data

/-- Does `sub` occur as a contiguous run inside `l`?
Models JS `String.prototype.includes`. -/
def isInfixList (sub : List Char) : List Char → Bool
  | [] => isPrefixList sub []
  | c :: cs => isPrefixList sub (c :: cs) || isInfixList sub cs

/-- Models JS `s.includes(sub)`. -/
def jsIncludes (s sub : String) : Bool :=
  isInfixList sub.data s.data

/-- Models JS `s.slice(n)` / `s.substring(n)` for ASCII content. -/
def jsDrop (s : String) (n : ℕ) : String :=
  ⟨s.data.drop n⟩

/-- JS whitespace as used by `String.prototype.trim` (ASCII subset). -/
def isJsSpace (c : Char) : Bool :=
  c = ' ' || c = '\t' || c = '\n' || c = '\r' || c.toNat = 11 || c.toNat = 12

/-- Models JS `s.trim()` on a char list. -/
def jsTrimList (l : List Char) : List Char :=
  ((l.dropWhile isJsSpace).reverse.dropWhile isJsSpace).reverse

/-- Models `s.split(",")`: `n` commas give `n+1` parts. -/
def splitComma : List Char → List (List Char)
  | [] => [[]]
  | c :: cs =>
    if c = ',' then [] :: splitComma cs
    else
      match splitComma cs with
      | p :: ps => (c :: p) :: ps
      | [] => [[c]]

/-- Digit-run parser: accumulates the decimal value and the number of digits
consumed, returning the rest of the input. -/
def parseDigitsAux : ℕ → ℕ → List Char → ℕ × ℕ × List Char
  | acc, cnt, [] => (acc, cnt, [])
  | acc, cnt, c :: cs =>
    if c.isDigit then parseDigitsAux (acc * 10 + (c.toNat - 48)) (cnt + 1) cs
    else (acc, cnt, c :: cs)

/-- Parse the exponent part `("e"|"E") sign? digits` (already past the `e`). -/
def parseExponent (l : List Char) : Option ℤ :=
  let (sign, rest) : ℤ × List Char :=
    match l with
    | '+' :: r => (1, r)
    | '-' :: r => (-1, r)
    | r => (1, r)
  let (ev, en, r2) := parseDigitsAux 0 0 rest
  if en = 0 ∨ r2 ≠ [] then none else some (sign * ev)

/-- Exact scaling by a power of ten, `q * 10 ^ e` for an integer exponent,
written with `mkRat` so it evaluates by kernel reduction. -/
def pow10Scale (q : ℚ) (e : ℤ) : ℚ :=
  match e with
  | .ofNat n => q * mkRat ((10 : ℤ) ^ n) 1
  | .negSucc n => q * mkRat 1 (10 ^ (n + 1))

/-- The mantissa-and-exponent tail of a JS numeric literal:
`digits? ("." digits?)? (("e"|"E") sign? digits)?` with at least one mantissa
digit and nothing left over. -/
def parseUnsignedNumber (l : List Char) : Option ℚ :=
  let (ip, ipn, r1) := parseDigitsAux 0 0 l
  let (fp, fpn, r2) : ℕ × ℕ × List Char :=
    match r1 with
    | '.' :: r => parseDigitsAux 0 0 r
    | r => (0, 0, r)
  if ipn + fpn = 0 then none
  else
    let mant : ℚ := mkRat ip 1 + mkRat fp (10 ^ fpn)
    match r2 with
    | [] => some mant
    | 'e' :: r3 => (parseExponent r3).map (fun e => pow10Scale mant e)
    | 'E' :: r3 => (parseExponent r3).map (fun e => pow10Scale mant e)
    | _ => none

/-- Models JS `Number(string)`: `none` stands for a non-finite result
(`NaN`/`Infinity`).  The empty (or all-whitespace) string converts to `0`.
The decimal grammar with optional sign, fraction and exponent is covered;
the exotic hex/octal/binary literal forms are conservatively mapped to
`NaN` (they never occur in the repository's data). -/
def jsStringToNumberList (l : List Char) : Option ℚ :=
  let t := jsTrimList l
  match t with
  | [] => some 0
  | '+' :: r => parseUnsignedNumber r
  | '-' :: r => (parseUnsignedNumber r).map (fun q => -q)
  | r => parseUnsignedNumber r

/-- Models JS `Number(string)` on `String`. -/
def jsStringToNumber (s : String) : Option ℚ :=
  jsStringToNumberList s.data

/-- Decimal digits of a natural number, fuel-driven so the recursion is
structural (fuel `n + 1` always suffices). -/
def natToStrAux : ℕ → ℕ → List Char
  | 0, _ => []
  | fuel + 1, n =>
    if n = 0 then []
    else natToStrAux fuel (n / 10) ++ [Char.ofNat (48 + n % 10)]

/-- Decimal rendering of a natural number. -/
def natToStr (n : ℕ) : String :=
  if n = 0 then "0" else ⟨natToStrAux (n + 1) n⟩

/-- Decimal rendering of an integer. -/
def intToStr (i : ℤ) : String :=
  if i < 0 then "-" ++ natToStr i.natAbs else natToStr i.natAbs

/-- Zero-padded 3-digit rendering, for the fractional part of `toFixed(3)`. -/
def pad3 (n : ℕ) : String :=
  if n < 10 then "00" ++ natToStr n
  else if n < 100 then "0" ++ natToStr n
  else natToStr n

/-- Models JS `x.toFixed(3)` with exact rational arithmetic: the sign is
taken first, then the magnitude is rounded to the nearest multiple of
`1/1000`, ties going to the larger value (ECMA-262 `Number.prototype.toFixed`). -/
def toFixed3 (q : ℚ) : String :=
  let sign := if q < 0 then "-" else ""
  let y : ℚ := if q < 0 then -q else q
  let n : ℕ := (y * 1000 + mkRat 1 2).floor.toNat
  sign ++ natToStr (n / 1000) ++ "." ++ pad3 (n % 1000)

/-! ## JSON values and the persisted key/value store -/

/-- A JSON value (the image of `JSON.parse` on a well-formed document).
Numbers are finite rationals — JSON has no `NaN`/`Infinity`.  Objects are
field lists in insertion order; parse output is assumed key-unique (the
canonical form `JSON.parse` produces). -/
inductive Json where
  | null : Json
  | bool (b : Bool) : Json
  | num (q : ℚ) : Json
  | str (s : String) : Json
  | arr (items : List Json) : Json
  | obj (fields : List (String × Json)) : Json

/-- First field with the given name (objects are key-unique). -/
def lookupField (name : String) : List (String × Json) → Option Json
  | [] => none
  | (k, v) :: fs => if k = name then some v else lookupField name fs

/-- JS property access `j[name]` for JSON values other than `null`
(`undefined` is `none`; property access on primitives yields `undefined`). -/
def jprop (j : Json) (name : String) : Option Json :=
  match j with
  | .obj fs => lookupField name fs
  | _ => none

/-- JS truthiness of a JSON value (`null`, `false`, `0`, `""` are falsy). -/
def jsTruthy : Json → Bool
  | .null => false
  | .bool b => b
  | .num q => q ≠ 0
  | .str s => s ≠ ""
  | .arr _ => true
  | .obj _ => true

/-- JS `String(v)` on JSON values.  Exact for the shapes the repository
stores (strings, booleans, null); numbers and containers get a
deterministic best-effort rendering (see `ratToJsString`). -/
def jsonFracDigits : ℕ → ℚ → List Char
  | 0, _ => []
  | fuel + 1, r =>
    if r = 0 then []
    else
      let r10 := r * 10
      let d := r10.floor.toNat
      Char.ofNat (48 + d) :: jsonFracDigits fuel (r10 - mkRat d 1)

/-- Decimal rendering of a finite JS number: exact on integers, a
20-digit truncated expansion on non-integers (JS prints the shortest
round-tripping decimal of the double; the difference is immaterial here
because every comparison in this file applies the same rendering on both
sides). -/
def ratToJsString (q : ℚ) : String :=
  if q.den = 1 then intToStr q.num
  else
    let sign := if q < 0 then "-" else ""
    let y : ℚ := if q < 0 then -q else q
    sign ++ natToStr y.floor.toNat ++ "." ++ ⟨jsonFracDigits 20 (y - mkRat y.floor 1)⟩

mutual

/-- JS `String(v)` coercion of a JSON value. -/
def jsToString : Json → String
  | .null => "null"
  | .bool b => if b then "true" else "false"
  | .num q => ratToJsString q
  | .str s => s
  | .arr xs => ⟨jsToStringArr xs⟩
  | .obj _ => "[object Object]"

/-- `String([...])` joins element strings with commas. -/
def jsToStringArr : List Json → List Char
  | [] => []
  | [x] => (jsToString x).data
  | x :: xs => (jsToString x).data ++ ',' :: jsToStringArr xs

end

/-- JS `Number(v)` coercion (`none` = `NaN`).  `undefined` (a missing
property) is passed as `none` and coerces to `NaN`. -/
def jsToNumber : Option Json → Option ℚ
  | none => none
  | some .null => some 0
  | some (.bool b) => some (if b then 1 else 0)
  | some (.num q) => some q
  | some (.str s) => jsStringToNumber s
  | some (.arr []) => some 0
  | some (.arr [x]) => jsToNumber (some x)
  | some (.arr (_ :: _ :: _)) => none
  | some (.obj _) => none

/-- Escape one character for a JSON string literal. -/
def escapeJsonChar (c : Char) : List Char :=
  if c = '"' then ['\\', '"']
  else if c = '\\' then ['\\', '\\']
  else if c = Char.ofNat 8 then ['\\', 'b']
  else if c = '\t' then ['\\', 't']
  else if c = '\n' then ['\\', 'n']
  else if c = Char.ofNat 12 then ['\\', 'f']
  else if c = '\r' then ['\\', 'r']
  else if c.toNat < 32 then
    ['\\', 'u', '0', '0',
      Char.ofNat (if c.toNat / 16 < 10 then 48 + c.toNat / 16 else 87 + c.toNat / 16),
      Char.ofNat (if c.toNat % 16 < 10 then 48 + c.toNat % 16 else 87 + c.toNat % 16)]
  else [c]

/-- JSON string literal for `s`. -/
def jsonEscapeString (s : String) : List Char :=
  '"' :: (s.data.flatMap escapeJsonChar) ++ ['"']

mutual

/-- `JSON.stringify` of a JSON value (fields in insertion order). -/
def jsonStringifyList : Json → List Char
  | .null => "null".data
  | .bool b => if b then "true".data else "false".data
  | .num q => (ratToJsString q).data
  | .str s => jsonEscapeString s
  | .arr xs => '[' :: jsonStringifyArr xs ++ [']']
  | .obj fs => Char.ofNat 123 :: jsonStringifyObj fs ++ [Char.ofNat 125]

def jsonStringifyArr : List Json → List Char
  | [] => []
  | [x] => jsonStringifyList x
  | x :: xs => jsonStringifyList x ++ ',' :: jsonStringifyArr xs

def jsonStringifyObj : List (String × Json) → List Char
  | [] => []
  | [(k, v)] => jsonEscapeString k ++ ':' :: jsonStringifyList v
  | (k, v) :: fs => jsonEscapeString k ++ ':' :: jsonStringifyList v ++ ',' :: jsonStringifyObj fs

end

/-- `JSON.stringify` as a `String`. -/
def jsonStringify (j : Json) : String :=
  ⟨jsonStringifyList j⟩

/-- A raw string sitting in the key/value store: either the serialization of
a JSON value (`JSON.parse` succeeds and returns exactly that value) or
garbage on which `JSON.parse` throws.  The empty string is `garbage ""`
(it is falsy and unparseable). -/
inductive RawValue where
  | json (j : Json) : RawValue
  | garbage (s : String) : RawValue

/-- JS falsiness of the raw stored string (`if (!raw) ...`): a serialized
JSON value is never the empty string. -/
def rawFalsy : RawValue → Bool
  | .json _ => false
  | .garbage s => s = ""

/-- The Raycast `LocalStorage`: a flat string-keyed store.  Modelled as an
association list read through `Store.get` (first match wins). -/
def Store := List (String × RawValue)

/-- `LocalStorage.getItem` (`none` = `undefined`). -/
def Store.get : Store → String → Option RawValue
  | [], _ => none
  | (k, v) :: t, key => if k = key then some v else Store.get t key

/-- `LocalStorage.setItem`: overwrite the existing binding or append. -/
def Store.set : Store → String → RawValue → Store
  | [], key, v => [(key, v)]
  | (k, w) :: t, key, v => if k = key then (key, v) :: t else (k, w) :: Store.set t key v

/-- Drop every binding whose key fails `keep` (used to model enumerating
`allItems()` and removing the matching keys one by one). -/
def Store.filterKeys (st : Store) (keep : String → Bool) : Store :=
  st.filter (fun kv => keep kv.1)

/-! ## Location Identity Resolver (src/forecast.tsx, locationKeyFromIdOrCoords) -/

/-- `COORD_PRECISION = 3`; `coordPart(n) = n.toFixed(COORD_PRECISION)`. -/
def coordPart (n : ℚ) : String :=
  toFixed3 n

/-- `locationKeyFromCoords(lat, lon)`. -/
def locationKeyFromCoords (lat lon : ℚ) : String :=
  "coord:" ++ coordPart lat ++ "," ++ coordPart lon

/-- `looksLikeLatLonPair(id)`: split on `","`, trim, both parts must
convert to finite numbers. -/
def looksLikeLatLonPair (id : String) : Option (ℚ × ℚ) :=
  let parts := (splitComma id.data).map jsTrimList
  match parts with
  | [p1, p2] =>
    match jsStringToNumberList p1, jsStringToNumberList p2 with
    | some la, some lo => some (la, lo)
    | _, _ => none
  | _ => none

/-- Tests the regex `^\d+$`. -/
def isAllDigits (s : String) : Bool :=
  !s.data.isEmpty && s.data.all (fun c => c.isDigit)

/-- `locationKeyFromIdOrCoords(id, lat, lon)` translated from
`src/forecast.tsx`.  `id = some ""` is falsy in JS and takes the
no-id branch. -/
def locationKeyFromIdOrCoords (id : Option String) (lat lon : ℚ) : String :=
  match id with
  | some s =>
    if s ≠ "" then
      if jsStartsWith s "osm:" || jsStartsWith s "coord:" || jsStartsWith s "id:" then s
      else if jsStartsWith s "favorite-" then locationKeyFromCoords lat lon
      else
        match looksLikeLatLonPair s with
        | some (la, lo) => locationKeyFromCoords la lo
        | none => if isAllDigits s then "osm:" ++ s else "id:" ++ s
    else locationKeyFromCoords lat lon
  | none => locationKeyFromCoords lat lon

/-- The Location Identity Resolver as the specification words it
(spec §4.1 / claim C1), written independently of the source translation:
a case analysis on the raw id.  Used as the comparison point of the
refinement theorem for C1. -/
def specResolve (rawId : Option String) (lat lon : ℚ) : String :=
  match rawId with
  | none => locationKeyFromCoords lat lon
  | some s =>
    if s = "" then
      -- "with no rawId the result is the coordinate key"; the empty string
      -- carries no id.
      locationKeyFromCoords lat lon
    else if jsStartsWith s "osm:" || jsStartsWith s "coord:" || jsStartsWith s "id:" then
      -- recognized canonical prefix: returned unchanged
      s
    else if jsStartsWith s "favorite-" then
      -- legacy placeholder: fall back to the caller's coordinates
      locationKeyFromCoords lat lon
    else
      match looksLikeLatLonPair s with
      | some (la, lo) =>
        -- "<lat>,<lon>" pair: coordinate key from the PARSED coordinates
        locationKeyFromCoords la lo
      | none =>
        if isAllDigits s then "osm:" ++ s
        else "id:" ++ s

/-! ## Generic TTL cache (src/cache.ts) -/

/-- `KEY_PREFIX = "cache:"` prepended to every cache key. -/
def cacheStorageKey (key : String) : String :=
  "cache:" ++ key

/-- The serialized `CacheEntry<T>` object `(savedAtMs, value)` written by
`setCached`. -/
def cacheEntryJson (savedAtMs : ℚ) (value : Json) : Json :=
  .obj [("savedAtMs", .num savedAtMs), ("value", value)]

/-- `getCached(key, ttlMs)` at clock `now`: read `cache:<key>`, treat a
missing/falsy/garbage/mis-shapen record or an over-age entry as a miss.
The read never mutates the store (lazy expiration), which the model makes
evident by taking no store output.  All throws are caught inside the
function, so the model is total. -/
def getCached (st : Store) (key : String) (ttlMs : ℚ) (now : ℚ) : Option Json :=
  match st.get (cacheStorageKey key) with
  | none => none
  | some rv =>
    if rawFalsy rv then none
    else
      match rv with
      | .garbage _ => none        -- JSON.parse throws; caught, miss
      | .json j =>
        match j with
        | .obj fs =>
          match lookupField "savedAtMs" fs with
          | some (.num savedAtMs) =>
            if now - savedAtMs > ttlMs then none
            else lookupField "value" fs
          | _ => none             -- typeof parsed.savedAtMs !== "number"
        | _ => none               -- !parsed, or property access gives undefined

/-- `setCached(key, value)` at clock `now`: stamp and overwrite
unconditionally. -/
def setCached (st : Store) (key : String) (value : Json) (now : ℚ) : Store :=
  st.set (cacheStorageKey key) (.json (cacheEntryJson now value))

/-- `removeCached(key)`. -/
def removeCached (st : Store) (key : String) : Store :=
  st.filterKeys (fun k => !(k = cacheStorageKey key))

/-- `clearCachedByPrefix(prefix)`: enumerate `allItems()`, remove every key
starting with `cache:<prefix>`; returns the number removed. -/
def clearCachedByPrefix (st : Store) (pre : String) : ℕ × Store :=
  let storagePrefix := cacheStorageKey pre
  ((st.filter (fun kv => jsStartsWith kv.1 storagePrefix)).length,
    st.filterKeys (fun k => !jsStartsWith k storagePrefix))

/-- `clearAllCached()`. -/
def clearAllCached (st : Store) : ℕ × Store :=
  ((st.filter (fun kv => jsStartsWith kv.1 "cache:")).length,
    st.filterKeys (fun k => !jsStartsWith k "cache:"))

/-! ## Favorites store (src/favorites.ts) -/

/-- `FavoriteLocation` after the load step: `id` is a string or `undefined`,
`lat`/`lon` are finite numbers (the load filter has already dropped
non-finite coordinates). -/
structure FavoriteLocation where
  id : Option String
  name : String
  lat : ℚ
  lon : ℚ
  deriving DecidableEq

/-- `STORAGE_KEY` of the favorites list. -/
def favoritesStorageKey : String := "favorite-locations"

/-- The canonical key of a favorite, as every store operation computes it:
`locationKeyFromIdOrCoords(fav.id, fav.lat, fav.lon)`. -/
def favKeyOf (f : FavoriteLocation) : String :=
  locationKeyFromIdOrCoords f.id f.lat f.lon

/-- `sameLocation(a, b)`: canonical identity only. -/
def sameLocation (a b : FavoriteLocation) : Bool :=
  favKeyOf a == favKeyOf b

/-- The JSON object `JSON.stringify` produces for one favorite
(`stringify` skips an `undefined` id field). -/
def encodeFav (f : FavoriteLocation) : Json :=
  .obj ((match f.id with
          | some s => [("id", Json.str s)]
          | none => [])
        ++ [("name", .str f.name), ("lat", .num f.lat), ("lon", .num f.lon)])

/-- The serialized favorites array. -/
def favListJson (l : List FavoriteLocation) : Json :=
  .arr (l.map encodeFav)

/-- One pass of the load map in `getFavorites`:
`id` kept only when a string, `name` via `String(obj.name ?? "Unknown")`,
`lat`/`lon` via `Number(...)` (`none` = NaN).  Property access on `null`
throws (`.error ()`), which the surrounding try/catch of `getFavorites`
turns into the empty list. -/
def rawFavOfJson (j : Json) : Except Unit (Option String × String × Option ℚ × Option ℚ) :=
  match j with
  | .null => .error ()
  | _ =>
    .ok
      (match jprop j "id" with
        | some (.str s) => some s
        | _ => none,
       match jprop j "name" with
        | none => "Unknown"
        | some .null => "Unknown"
        | some v => jsToString v,
       jsToNumber (jprop j "lat"),
       jsToNumber (jprop j "lon"))

/-- Element-wise coercion of the parsed array; the first throw aborts the
whole `parsed.map(...)` call. -/
def loadFavoritesAux : List Json →
    Except Unit (List (Option String × String × Option ℚ × Option ℚ))
  | [] => .ok []
  | j :: rest =>
    match rawFavOfJson j, loadFavoritesAux rest with
    | .ok r, .ok rs => .ok (r :: rs)
    | .error e, _ => .error e
    | .ok _, .error e => .error e

/-- The load-and-filter step of `getFavorites` on the parsed array:
coerce every element, then keep only the entries with finite coordinates. -/
def loadFavorites (items : List Json) : Except Unit (List FavoriteLocation) :=
  (loadFavoritesAux items).map (fun raws =>
    raws.filterMap (fun r =>
      match r with
      | (id, name, some lat, some lon) => some ⟨id, name, lat, lon⟩
      | _ => none))

/-- The migration loop of `getFavorites`: walk the loaded list with the set
of canonical keys seen so far; rewrite each surviving id to canonical form,
drop later entries whose canonical key was already seen, and track whether
anything changed. -/
def migrateAux : List FavoriteLocation → List String → List FavoriteLocation × Bool
  | [], _ => ([], false)
  | fav :: rest, seen =>
    let canonicalId := favKeyOf fav
    if seen.contains canonicalId then
      ((migrateAux rest seen).1, true)
    else
      ({ fav with id := some canonicalId } :: (migrateAux rest (canonicalId :: seen)).1,
        decide (fav.id ≠ some canonicalId) || (migrateAux rest (canonicalId :: seen)).2)

/-- The migrated list of a loaded favorites list. -/
def migrateList (l : List FavoriteLocation) : List FavoriteLocation :=
  (migrateAux l []).1

/-- `setFavorites(list)`: `LocalStorage.setItem(STORAGE_KEY, JSON.stringify(list))`. -/
def setFavorites (st : Store) (l : List FavoriteLocation) : Store :=
  st.set favoritesStorageKey (.json (favListJson l))

/-- `getFavorites()`: load the raw list, run the one-time migration, persist
the corrected list when anything changed, and return it.  Every failure
(missing/falsy raw value, parse throw, non-array shape, throw while
coercing an element) degrades to the empty list with the store untouched. -/
def getFavorites (st : Store) : List FavoriteLocation × Store :=
  match st.get favoritesStorageKey with
  | none => ([], st)
  | some rv =>
    if rawFalsy rv then ([], st)
    else
      match rv with
      | .garbage _ => ([], st)
      | .json j =>
        match j with
        | .arr items =>
          match loadFavorites items with
          | .error _ => ([], st)
          | .ok loaded =>
            if (migrateAux loaded []).2 then
              ((migrateAux loaded []).1, setFavorites st (migrateAux loaded []).1)
            else ((migrateAux loaded []).1, st)
        | _ => ([], st)

/-- The candidate with its id rewritten to canonical form, as every mutating
operation computes it before searching the list. -/
def canonicalFav (f : FavoriteLocation) : FavoriteLocation :=
  { f with id := some (favKeyOf f) }

/-- `addFavorite(fav)`: returns whether the favorite was added, with the
resulting store. -/
def addFavorite (st : Store) (fav : FavoriteLocation) : Bool × Store :=
  if (getFavorites st).1.any (fun f => sameLocation f (canonicalFav fav)) then
    (false, (getFavorites st).2)
  else (true, setFavorites (getFavorites st).2 ((getFavorites st).1 ++ [canonicalFav fav]))

/-- `removeFavorite(fav)`: filter by canonical identity and persist
unconditionally. -/
def removeFavorite (st : Store) (fav : FavoriteLocation) : Store :=
  setFavorites (getFavorites st).2
    ((getFavorites st).1.filter (fun f => !sameLocation f (canonicalFav fav)))

/-- `isFavorite(fav)`. -/
def isFavorite (st : Store) (fav : FavoriteLocation) : Bool :=
  (getFavorites st).1.any (fun f => sameLocation f (canonicalFav fav))

/-- The two-index element swap
`[list[i], list[j]] = [list[j], list[i]]` (identity when either index is
out of bounds; the callers only use adjacent in-bounds indices). -/
def listSwap {α : Type} (l : List α) (i j : ℕ) : List α :=
  match l.get? i, l.get? j with
  | some a, some b => (l.set i b).set j a
  | _, _ => l

/-- `moveFavoriteUp(fav)`: swap with the previous element when found at a
positive index. -/
def moveFavoriteUp (st : Store) (fav : FavoriteLocation) : Store :=
  match (getFavorites st).1.findIdx? (fun f => sameLocation f (canonicalFav fav)) with
  | some i =>
    if 0 < i then
      setFavorites (getFavorites st).2 (listSwap (getFavorites st).1 (i - 1) i)
    else (getFavorites st).2
  | none => (getFavorites st).2

/-- `moveFavoriteDown(fav)`: swap with the next element when found before
the last position. -/
def moveFavoriteDown (st : Store) (fav : FavoriteLocation) : Store :=
  match (getFavorites st).1.findIdx? (fun f => sameLocation f (canonicalFav fav)) with
  | some i =>
    if i + 1 < (getFavorites st).1.length then
      setFavorites (getFavorites st).2 (listSwap (getFavorites st).1 i (i + 1))
    else (getFavorites st).2
  | none => (getFavorites st).2

/-- Spec-side "first wins" de-duplication (spec §4.2 / claim C2): keep an
entry when its key has not been seen, discard it otherwise, preserving
order.  Written from the specification's words, to be compared with the
source-translated migration loop. -/
def dedupFirst {α κ : Type} [DecidableEq κ] (key : α → κ) : List α → List κ → List α
  | [], _ => []
  | a :: as, seen =>
    if key a ∈ seen then dedupFirst key as seen
    else a :: dedupFirst key as (key a :: seen)

/-! ## Graph cache (src/graph-cache.ts, src/utils/cache-manager.ts)

The graph-TTL threshold, the current schema version string and the UI
appearance come from `config/weather-config` and the Raycast `environment`;
they are passed to the model as parameters. -/

/-- One point of the weather series; the graph-cache hash only reads
`time` and the series length, so the other fields are irrelevant here. -/
structure TimeseriesEntry where
  time : String

/-- The `"detailed" | "summary"` graph mode. -/
inductive GraphMode where
  | detailed
  | summary
  deriving DecidableEq

/-- The mode as the string used inside cache keys. -/
def GraphMode.str : GraphMode → String
  | .detailed => "detailed"
  | .summary => "summary"

/-- The standard base64 alphabet. -/
def base64Table : List Char :=
  "ABCDEFGHIJKLMNOPQRSTUVWXYZabcdefghijklmnopqrstuvwxyz0123456789+/".data

/-- One base64 digit. -/
def base64Char (n : ℕ) : Char :=
  base64Table.getD n 'A'

/-- Base64 of a byte list, three bytes at a time with `=` padding. -/
def base64Aux : List ℕ → List Char
  | [] => []
  | [a] =>
    [base64Char (a / 4), base64Char (a % 4 * 16), '=', '=']
  | [a, b] =>
    [base64Char (a / 4), base64Char (a % 4 * 16 + b / 16), base64Char (b % 16 * 4), '=']
  | a :: b :: c :: rest =>
    base64Char (a / 4) :: base64Char (a % 4 * 16 + b / 16) ::
      base64Char (b % 16 * 4 + c / 64) :: base64Char (c % 64) :: base64Aux rest

/-- JS `btoa(s)`: base64 of the Latin-1 bytes; throws (`none`) when any
character is above `U+00FF`. -/
def btoa (s : String) : Option String :=
  if s.data.all (fun c => c.toNat < 256) then some ⟨base64Aux (s.data.map Char.toNat)⟩
  else none

/-- `generateDataHash(series, name, hours, sunByDate)`: a canonical summary
object `(seriesLength, name, hours, firstTime?, lastTime?, sunByDate)` is
stringified, base64-encoded, stripped to alphanumerics and truncated to 40
characters.  `JSON.stringify` drops the `firstTime`/`lastTime` fields when
the series is empty (`series[0]?.time` is `undefined`).  `none` models the
`btoa` throw on non-Latin-1 input, caught by the callers. -/
def generateDataHash (series : List TimeseriesEntry) (name : String) (hours : ℕ)
    (sunByDate : Option Json) : Option String :=
  let keyData : Json :=
    .obj ([("seriesLength", Json.num (mkRat series.length 1)), ("name", .str name),
           ("hours", .num (mkRat hours 1))]
      ++ (match series.head? with
          | some t => [("firstTime", Json.str t.time)]
          | none => [])
      ++ (match series.getLast? with
          | some t => [("lastTime", Json.str t.time)]
          | none => [])
      ++ [("sunByDate", .str (match sunByDate with
                              | some j => jsonStringify j
                              | none => "empty"))])
  (btoa (jsonStringify keyData)).map
    (fun b => ⟨(b.data.filter (fun c => c.isAlpha || c.isDigit)).take 40⟩)

/-- `CacheKeyGenerator.graph(locationKey, mode, targetDate, dataHash, paletteId)`
from `src/utils/cache-manager.ts`: `graph:<loc>:<mode>:<palette>` with the
target date (preferred) or the data hash appended when truthy. -/
def cacheKeyGraph (locationKey : String) (mode : GraphMode) (targetDate : Option String)
    (dataHash : Option String) (paletteId : String) : String :=
  let baseKey := "graph:" ++ locationKey ++ ":" ++ mode.str ++ ":" ++ paletteId
  match targetDate with
  | some d =>
    if d ≠ "" then baseKey ++ ":" ++ d
    else
      match dataHash with
      | some h => if h ≠ "" then baseKey ++ ":" ++ h else baseKey
      | none => baseKey
  | none =>
    match dataHash with
    | some h => if h ≠ "" then baseKey ++ ":" ++ h else baseKey
    | none => baseKey

/-- `generateGraphCacheKey`: palette from the current appearance. -/
def generateGraphCacheKey (appearanceDark : Bool) (locationKey : String) (mode : GraphMode)
    (targetDate : Option String) (dataHash : Option String) : String :=
  cacheKeyGraph locationKey mode targetDate dataHash (if appearanceDark then "dark" else "light")

/-- The serialized `GraphCacheEntry` written by `setCachedGraph`. -/
def graphCacheEntryJson (markdown : String) (version : String) (dataHash : String)
    (generatedAt : ℚ) : Json :=
  .obj [("markdown", .str markdown), ("version", .str version),
        ("dataHash", .str dataHash), ("generatedAt", .num generatedAt)]

/-- `getCachedGraph(...)`: recompute the data hash and the cache key, read
through the generic TTL cache with the graph TTL, then reject a hit whose
`version` or `dataHash` fields do not match; return its `markdown` field.
The returned value is the raw field content (`none` both for a miss and
for a malformed hit); every internal throw is caught and becomes `none`. -/
def getCachedGraph (graphTtl : ℚ) (graphVersion : String) (appearanceDark : Bool)
    (st : Store) (now : ℚ) (locationKey : String) (mode : GraphMode)
    (series : List TimeseriesEntry) (name : String) (hours : ℕ)
    (sunByDate : Option Json) (targetDate : Option String) : Option Json :=
  match generateDataHash series name hours sunByDate with
  | none => none
  | some dataHash =>
    match getCached st
        (generateGraphCacheKey appearanceDark locationKey mode targetDate (some dataHash))
        graphTtl now with
    | none => none
    | some cached =>
      if !jsTruthy cached then none
      else if !(match jprop cached "version" with
                | some (.str v) => v = graphVersion
                | _ => false) then none
      else if !(match jprop cached "dataHash" with
                | some (.str h) => h = dataHash
                | _ => false) then none
      else jprop cached "markdown"

/-- `setCachedGraph(...)`: write the entry through the generic cache under
the same recomputed key; a `btoa` throw is caught and nothing is written. -/
def setCachedGraph (graphVersion : String) (appearanceDark : Bool)
    (st : Store) (now : ℚ) (locationKey : String) (mode : GraphMode)
    (series : List TimeseriesEntry) (name : String) (hours : ℕ) (markdown : String)
    (sunByDate : Option Json) (targetDate : Option String) : Store :=
  match generateDataHash series name hours sunByDate with
  | none => st
  | some dataHash =>
    let cacheKey := generateGraphCacheKey appearanceDark locationKey mode targetDate (some dataHash)
    setCached st cacheKey (graphCacheEntryJson markdown graphVersion dataHash now) now

/-- `clearLocationGraphCache(locationKey)` =
`clearCachedByPrefix("graph:" + locationKey + ":")`. -/
def clearLocationGraphCache (st : Store) (locationKey : String) : Store :=
  (clearCachedByPrefix st ("graph:" ++ locationKey ++ ":")).2

/-- `invalidateLocationGraphCache(locationKey)` delegates to
`clearLocationGraphCache`. -/
def invalidateLocationGraphCache (st : Store) (locationKey : String) : Store :=
  clearLocationGraphCache st locationKey

/-- `invalidateModeGraphCache(mode)`: enumerate `allItems()`, and remove
every key under `cache:graph:` whose internal key (the storage key with the
`cache:` prefix sliced off) CONTAINS `":" + mode` as a substring. -/
def invalidateModeGraphCache (st : Store) (mode : GraphMode) : Store :=
  st.filterKeys (fun k =>
    !(jsStartsWith k "cache:graph:" && jsIncludes (jsDrop k 6) (":" ++ mode.str)))

/-! ## Shared request helper (src/utils/api-client.ts, fetchJsonWithRetry)

The network is modelled as an oracle `attempts : ℕ → FetchResult` giving the
outcome of the `attempt`-th `fetch`.  No caller-supplied cancellation signal
is modelled (the claims quantify over the helper's own behaviour); the
per-attempt timeout IS modelled, because the timeout fires the internal
`AbortController` and the `fetch` rejection then carries the name
`"AbortError"` — indistinguishable, inside the catch block, from a caller
abort. -/

/-- Outcome of one `fetch` attempt.  `timeout` is the internal
timeout-triggered abort (an `AbortError` rejection); `networkError` is any
other rejection without an HTTP status (DNS failure, reset, or a
`res.json()` body-parse throw after a 2xx). -/
inductive FetchResult where
  | ok (data : Json)
  | httpError (status : ℕ) (statusText : String)
  | timeout
  | networkError (msg : String)

/-- The error surfaced to the caller. -/
inductive ReqError where
  | http (status : ℕ)
  | aborted
  | network (msg : String)
  deriving DecidableEq

/-- `shouldRetryStatus(status)`. -/
def shouldRetryStatus (status : ℕ) : Bool :=
  status == 429 || (500 ≤ status && status ≤ 599)

/-- Result of a whole `fetchJsonWithRetry` run: the surfaced result, the
number of attempts actually performed, and the backoff delays slept
(in order) between attempts. -/
structure RunOut where
  result : Except ReqError Json
  used : ℕ
  delays : List ℚ

/-- The retry loop, one recursive step per loop iteration; `fuel` is
`retries + 1 - attempt`, so the base case is unreachable (mirroring the
dead `throw lastError` after the `for` loop). -/
def fetchGo (attempts : ℕ → FetchResult) (retries : ℕ) (retryDelayMs : ℚ) :
    ℕ → ℕ → RunOut
  | _, 0 => ⟨.error (.network "retry budget exhausted"), 0, []⟩
  | attempt, fuel + 1 =>
    match attempts attempt with
    | .ok d => ⟨.ok d, 1, []⟩
    | .timeout =>
      -- the AbortError rejection is rethrown immediately, budget or not
      ⟨.error .aborted, 1, []⟩
    | .httpError status _ =>
      if attempt < retries && shouldRetryStatus status then
        let r := fetchGo attempts retries retryDelayMs (attempt + 1) fuel
        ⟨r.result, r.used + 1, retryDelayMs * 2 ^ attempt :: r.delays⟩
      else ⟨.error (.http status), 1, []⟩
    | .networkError msg =>
      if attempt < retries then
        let r := fetchGo attempts retries retryDelayMs (attempt + 1) fuel
        ⟨r.result, r.used + 1, retryDelayMs * 2 ^ attempt :: r.delays⟩
      else ⟨.error (.network msg), 1, []⟩

/-- `fetchJsonWithRetry(url, { retries, retryDelayMs })` against the
attempt oracle. -/
def fetchJsonWithRetry (attempts : ℕ → FetchResult) (retries : ℕ)
    (retryDelayMs : ℚ) : RunOut :=
  fetchGo attempts retries retryDelayMs 0 (retries + 1)

/-- Which single-attempt outcomes the loop retries when budget remains:
HTTP 429/5xx and status-less non-abort failures.  Successes, timeouts
(abort rejections) and non-retryable statuses stop the loop. -/
def retryableOutcome : FetchResult → Bool
  | .httpError status _ => shouldRetryStatus status
  | .networkError _ => true
  | _ => false

/-- How a final attempt's outcome surfaces to the caller. -/
def outcomeToResult : FetchResult → Except ReqError Json
  | .ok d => .ok d
  | .timeout => .error .aborted
  | .httpError status _ => .error (.http status)
  | .networkError msg => .error (.network msg)

/-- A 10-entry and a 9-entry hourly series over distinct timestamps, used
to exercise the graph cache's content-hash check. -/
def c3SeriesOfLen (n : ℕ) : List TimeseriesEntry :=
  (List.range n).map (fun i => ⟨"2025-01-01T" ++ natToStr i ++ ":00"⟩)

/-- Canonical well-formedness of a favorites list: every id is the entry's
own canonical key (hence a fixed point of the resolver, carrying one of the
canonical prefixes) and no two entries share a canonical key. -/
def goodList (l : List FavoriteLocation) : Prop :=
  (∀ f ∈ l, f.id = some (favKeyOf f))
    ∧ (∀ f ∈ l, (jsStartsWith (favKeyOf f) "osm:" || jsStartsWith (favKeyOf f) "coord:"
        || jsStartsWith (favKeyOf f) "id:") = true)
    ∧ (l.map favKeyOf).Nodup

/-- What a favorites-store operation may do to the persisted favorites
record: leave it alone, or persist the serialization of a canonically
well-formed list. -/
def persistsGood (st st2 : Store) : Prop :=
  st2.get favoritesStorageKey = st.get favoritesStorageKey
    ∨ ∃ l, goodList l ∧ st2.get favoritesStorageKey = some (.json (favListJson l))

/-- Attempt oracle for the C4 counterexample: the first fetch times out,
every later fetch would succeed. -/
def c4TimeoutThenOk : ℕ → FetchResult :=
  fun i => if i = 0 then .timeout else .ok (.str "payload")

/-! ## C9: malformed persisted records are fail-open -/

/-- The shape `getCached` requires of a parsed record: an object whose
`savedAtMs` field is a number. -/
def cacheEntryShaped (j : Json) : Prop :=
  ∃ fs t0, j = Json.obj fs ∧ lookupField "savedAtMs" fs = some (.num t0)

/-- A malformed generic-cache record: missing, unparseable, or shaped
wrongly. -/
def malformedCacheRecord : Option RawValue → Prop
  | none => True
  | some (.garbage _) => True
  | some (.json j) => ¬cacheEntryShaped j

/-- A malformed favorites record: missing, unparseable, not an array, or an
array whose element coercion throws (a `null` element). -/
def malformedFavoritesRecord : Option RawValue → Prop
  | none => True
  | some (.garbage _) => True
  | some (.json j) =>
    (∀ items, j ≠ Json.arr items) ∨
      (∃ items, j = Json.arr items ∧ loadFavorites items = .error ())

/-! ## Basic lemmas about the store and string model -/

theorem Store.get_set_self (st : Store) (k : String) (v : RawValue) :
    (st.set k v).get k = some v := by
  induction st with
  | nil => simp [Store.set, Store.get]
  | cons hd tl ih =>
    obtain ⟨k0, v0⟩ := hd
    by_cases h : k0 = k <;> simp [Store.set, Store.get, h, ih]

theorem Store.get_set_ne (st : Store) (k k2 : String) (v : RawValue) (h : k2 ≠ k) :
    (st.set k v).get k2 = st.get k2 := by
  have hkk2 : ¬(k = k2) := fun hh => h hh.symm
  induction st with
  | nil => simp [Store.set, Store.get, hkk2]
  | cons hd tl ih =>
    obtain ⟨k0, v0⟩ := hd
    by_cases h0 : k0 = k
    · subst h0
      simp only [Store.set, if_pos rfl, Store.get, if_neg hkk2]
    · simp only [Store.set, if_neg h0, Store.get]
      by_cases h2 : k0 = k2
      · simp [h2]
      · simp [h2, ih]

theorem Store.get_filterKeys_keep (st : Store) (q : String → Bool) (k : String)
    (h : q k = true) : (st.filterKeys q).get k = st.get k := by
  induction st with
  | nil => simp [Store.filterKeys, Store.get]
  | cons hd tl ih =>
    obtain ⟨k0, v0⟩ := hd
    by_cases h0 : k0 = k
    · subst h0
      simp [Store.filterKeys, List.filter, h, Store.get]
    · by_cases hq : q k0 <;>
        simpa [Store.filterKeys, List.filter, hq, Store.get, h0] using ih

theorem Store.get_filterKeys_drop (st : Store) (q : String → Bool) (k : String)
    (h : q k = false) : (st.filterKeys q).get k = none := by
  induction st with
  | nil => simp [Store.filterKeys, Store.get]
  | cons hd tl ih =>
    obtain ⟨k0, v0⟩ := hd
    by_cases h0 : k0 = k
    · subst h0
      simp only [Store.filterKeys, List.filter, h, Bool.false_eq_true, if_false]
      exact ih
    · by_cases hq : q k0 <;>
        simpa [Store.filterKeys, List.filter, hq, Store.get, h0] using ih

theorem isPrefixList_self_append (p rest : List Char) :
    isPrefixList p (p ++ rest) = true := by
  induction p with
  | nil => simp [isPrefixList]
  | cons c cs ih => simp [isPrefixList, ih]

theorem jsStartsWith_self_append (pre tail : String) :
    jsStartsWith (pre ++ tail) pre = true := by
  simp [jsStartsWith, String.data_append, isPrefixList_self_append]

theorem isPrefixList_of_prefix {p l : List Char} (h : p <+: l) :
    isPrefixList p l = true := by
  obtain ⟨t, rfl⟩ := h
  exact isPrefixList_self_append p t

theorem isInfixList_of_infix {sub l : List Char} (h : sub <:+: l) :
    isInfixList sub l = true := by
  induction l with
  | nil =>
    have hsub : sub = [] := by
      simpa using List.eq_nil_of_sublist_nil h.sublist
    simp [hsub, isInfixList, isPrefixList]
  | cons c cs ih =>
    rcases List.infix_cons_iff.1 h with hp | hi
    · simp [isInfixList, isPrefixList_of_prefix hp]
    · simp [isInfixList, ih hi]

/-! ## Resolver lemmas: every produced key is canonically prefixed and is a
fixed point of the resolver -/

theorem resolver_hasPrefix (id : Option String) (lat lon : ℚ) :
    (jsStartsWith (locationKeyFromIdOrCoords id lat lon) "osm:"
      || jsStartsWith (locationKeyFromIdOrCoords id lat lon) "coord:"
      || jsStartsWith (locationKeyFromIdOrCoords id lat lon) "id:") = true := by
  have hcoord : ∀ a b : ℚ, (jsStartsWith (locationKeyFromCoords a b) "osm:"
      || jsStartsWith (locationKeyFromCoords a b) "coord:"
      || jsStartsWith (locationKeyFromCoords a b) "id:") = true := by
    intro a b
    have hsplit : locationKeyFromCoords a b = "coord:" ++ (coordPart a ++ "," ++ coordPart b) := by
      simp [locationKeyFromCoords, String.append_assoc]
    simp [hsplit, jsStartsWith_self_append]
  match id with
  | none => exact hcoord lat lon
  | some s =>
    simp only [locationKeyFromIdOrCoords]
    split
    · split
      · assumption
      · split
        · exact hcoord lat lon
        · split
          · exact hcoord _ _
          · split
            · simp [jsStartsWith_self_append]
            · simp [jsStartsWith_self_append]
    · exact hcoord lat lon

theorem resolver_fixed_of_prefix (k : String) (a b : ℚ)
    (h : (jsStartsWith k "osm:" || jsStartsWith k "coord:" || jsStartsWith k "id:") = true) :
    locationKeyFromIdOrCoords (some k) a b = k := by
  have hne : k ≠ "" := by
    intro hk
    subst hk
    simp [jsStartsWith, isPrefixList] at h
  simp [locationKeyFromIdOrCoords, hne, h]

/-- The resolver's output is one of its own fixed points: resolving an
already-canonical key returns it unchanged, whatever coordinates come with
it. -/
theorem resolver_idem (id : Option String) (lat lon a b : ℚ) :
    locationKeyFromIdOrCoords (some (locationKeyFromIdOrCoords id lat lon)) a b
      = locationKeyFromIdOrCoords id lat lon :=
  resolver_fixed_of_prefix _ a b (resolver_hasPrefix id lat lon)

/-- C1. The Location Identity Resolver implements the specified case
analysis for every input — the source translation agrees everywhere with
`specResolve`, the case analysis written from the specification's words —
and the three scenario results hold: a purely numeric id wraps as
`osm:<id>`, absent ids round the caller's coordinates to three decimals,
and a `"<lat>,<lon>"` id uses the coordinates parsed from the string
rather than the caller's. -/
theorem c1_resolver_case_analysis :
    (∀ (rawId : Option String) (lat lon : ℚ),
        locationKeyFromIdOrCoords rawId lat lon = specResolve rawId lat lon)
    ∧ locationKeyFromIdOrCoords (some "123") (59.9139 : ℚ) (10.7522 : ℚ) = "osm:123"
    ∧ locationKeyFromIdOrCoords none (59.9139 : ℚ) (10.7522 : ℚ) = "coord:59.914,10.752"
    ∧ locationKeyFromIdOrCoords (some "59.914,10.752") 0 0 = "coord:59.914,10.752" := by
  refine ⟨fun rawId lat lon => ?_, by with_unfolding_all decide,
    by with_unfolding_all decide, by with_unfolding_all decide⟩
  match rawId with
  | none => rfl
  | some s =>
    by_cases hs : s = ""
    · subst hs
      simp [locationKeyFromIdOrCoords, specResolve]
    · simp [locationKeyFromIdOrCoords, specResolve, hs]

/-- C5. Generic TTL cache round-trip and expiry: after `setCached(key, v)`
at time `t0`, a `getCached(key, ttl)` read at `t0 + t` returns `v` while
`t ≤ ttl` and misses when `t > ttl`; the expired entry is still stored
after the read (`getCached` takes no store output — reads never mutate,
expiration is lazy). -/
theorem c5_cache_roundtrip_expiry (st : Store) (key : String) (v : Json)
    (ttl t0 t : ℚ) (httl : 0 < ttl) :
    (t ≤ ttl → getCached (setCached st key v t0) key ttl (t0 + t) = some v)
    ∧ (ttl < t → getCached (setCached st key v t0) key ttl (t0 + t) = none)
    ∧ (setCached st key v t0).get (cacheStorageKey key)
        = some (.json (cacheEntryJson t0 v)) := by
  have hget : (setCached st key v t0).get (cacheStorageKey key)
      = some (.json (cacheEntryJson t0 v)) :=
    Store.get_set_self st (cacheStorageKey key) _
  refine ⟨fun hle => ?_, fun hlt => ?_, hget⟩
  · simp [getCached, hget, cacheEntryJson, rawFalsy, lookupField]
    linarith
  · simp [getCached, hget, cacheEntryJson, rawFalsy, lookupField]
    linarith

/-- Closed witness for C5 at a concrete input. -/
theorem c5_cache_roundtrip_expiry_witness :
    (0 : ℚ) < 1000
    ∧ getCached (setCached [] "k" (.str "v") 50) "k" 1000 (50 + 900) = some (.str "v")
    ∧ getCached (setCached [] "k" (.str "v") 50) "k" 1000 (50 + 1500) = none := by
  refine ⟨by norm_num, ?_, ?_⟩
  · exact (c5_cache_roundtrip_expiry [] "k" (.str "v") 1000 50 900 (by norm_num)).1
      (by norm_num)
  · exact (c5_cache_roundtrip_expiry [] "k" (.str "v") 1000 50 1500 (by norm_num)).2.1
      (by norm_num)

/-- C9. Fail-open reads: whenever the persisted record backing a generic
cache key is missing, unparseable or of the wrong shape, `getCached`
returns a miss, and whenever the record backing the favorites list is
missing, unparseable, not an array, or an array whose element coercion
throws, `getFavorites` returns the empty list and leaves the store
untouched.  Neither operation can throw: both model functions are total
and every internal throw site is caught (`Option`/`Except` handled inside
the definitions). -/
theorem c9_malformed_records_fail_open :
    (∀ (st : Store) (key : String) (ttl now : ℚ),
        malformedCacheRecord (st.get (cacheStorageKey key)) →
        getCached st key ttl now = none)
    ∧ (∀ st : Store,
        malformedFavoritesRecord (st.get favoritesStorageKey) →
        getFavorites st = ([], st)) := by
  constructor
  · intro st key ttl now hmal
    unfold getCached
    match hv : st.get (cacheStorageKey key) with
    | none => rfl
    | some (.garbage s) =>
      by_cases hs : s = "" <;> simp [rawFalsy, hs]
    | some (.json j) =>
      rw [hv] at hmal
      simp only [malformedCacheRecord] at hmal
      simp only [rawFalsy, Bool.false_eq_true, if_false]
      match j with
      | .null | .bool _ | .num _ | .str _ | .arr _ => rfl
      | .obj fs =>
        match hf : lookupField "savedAtMs" fs with
        | none => simp [hf]
        | some .null => simp [hf]
        | some (.bool b) => simp [hf]
        | some (.str s) => simp [hf]
        | some (.arr a) => simp [hf]
        | some (.obj o) => simp [hf]
        | some (.num t0) =>
          exact absurd ⟨fs, t0, rfl, hf⟩ hmal
  · intro st hmal
    unfold getFavorites
    match hv : st.get favoritesStorageKey with
    | none => rfl
    | some (.garbage s) =>
      by_cases hs : s = "" <;> simp [rawFalsy, hs]
    | some (.json j) =>
      rw [hv] at hmal
      simp only [malformedFavoritesRecord] at hmal
      simp only [rawFalsy, Bool.false_eq_true, if_false]
      match j with
      | .null | .bool _ | .num _ | .str _ | .obj _ => rfl
      | .arr items =>
        rcases hmal with hne | ⟨items2, heq, herr⟩
        · exact absurd rfl (hne items)
        · cases heq
          simp [herr]

/-- Closed witness for C9: a garbage cache record and a non-array favorites
record both degrade to absent/empty. -/
theorem c9_malformed_records_fail_open_witness :
    getCached [("cache:k", RawValue.garbage "definitely not JSON")] "k" 60000 5 = none
    ∧ getFavorites [(favoritesStorageKey, RawValue.json (Json.str "oops"))]
        = ([], [(favoritesStorageKey, RawValue.json (Json.str "oops"))]) := by
  constructor
  · exact c9_malformed_records_fail_open.1
      [("cache:k", RawValue.garbage "definitely not JSON")] "k" 60000 5 (by
        simp [Store.get, cacheStorageKey, malformedCacheRecord])
  · exact c9_malformed_records_fail_open.2
      [(favoritesStorageKey, RawValue.json (Json.str "oops"))] (by
        simp only [Store.get, favoritesStorageKey, if_pos rfl, malformedFavoritesRecord]
        exact Or.inl (fun items h => by cases h))

/-! ## C7: invalidate-by-location removes exactly the location's graph
entries -/

/-- C7. For every stored state, invalidating a location's graph cache
removes every persisted entry whose storage key starts with
`cache:graph:<locationKey>:` and leaves every other persisted entry —
graph entries of other locations included — unchanged;
`clearLocationGraphCache` and `invalidateLocationGraphCache` agree. -/
theorem c7_invalidate_location_graph_cache (st : Store) (locationKey k : String) :
    (jsStartsWith k ("cache:graph:" ++ locationKey ++ ":") = true →
      (invalidateLocationGraphCache st locationKey).get k = none)
    ∧ (jsStartsWith k ("cache:graph:" ++ locationKey ++ ":") = false →
      (invalidateLocationGraphCache st locationKey).get k = st.get k)
    ∧ invalidateLocationGraphCache st locationKey = clearLocationGraphCache st locationKey := by
  have hkey : cacheStorageKey ("graph:" ++ locationKey ++ ":")
      = "cache:graph:" ++ locationKey ++ ":" := by
    simp [cacheStorageKey, ← String.append_assoc]
  refine ⟨fun h => ?_, fun h => ?_, rfl⟩
  · simp only [invalidateLocationGraphCache, clearLocationGraphCache, clearCachedByPrefix]
    apply Store.get_filterKeys_drop
    simp [hkey, h]
  · simp only [invalidateLocationGraphCache, clearLocationGraphCache, clearCachedByPrefix]
    apply Store.get_filterKeys_keep
    simp [hkey, h]

/-- Closed witness for C7: with one detailed-graph entry for `osm:1`, one
for `osm:12` and the favorites list stored, invalidating `osm:1` removes
exactly the first. -/
theorem c7_invalidate_location_graph_cache_witness :
    (invalidateLocationGraphCache
        [("cache:graph:osm:1:detailed:light", RawValue.garbage "a"),
         ("cache:graph:osm:12:detailed:light", RawValue.garbage "b"),
         ("favorite-locations", RawValue.garbage "c")] "osm:1").get
      "cache:graph:osm:1:detailed:light" = none
    ∧ (invalidateLocationGraphCache
        [("cache:graph:osm:1:detailed:light", RawValue.garbage "a"),
         ("cache:graph:osm:12:detailed:light", RawValue.garbage "b"),
         ("favorite-locations", RawValue.garbage "c")] "osm:1").get
      "cache:graph:osm:12:detailed:light" = some (RawValue.garbage "b") := by
  constructor
  · exact (c7_invalidate_location_graph_cache _ "osm:1" _).1 (by decide)
  · have h2 := (c7_invalidate_location_graph_cache
      [("cache:graph:osm:1:detailed:light", RawValue.garbage "a"),
       ("cache:graph:osm:12:detailed:light", RawValue.garbage "b"),
       ("favorite-locations", RawValue.garbage "c")] "osm:1"
      "cache:graph:osm:12:detailed:light").2.1 (by decide)
    rw [h2]
    rfl

/-! ## C8: invalidate-by-mode actually matches a SUBSTRING, not the mode
component -/

/-- C8 counterexample.  The claim says invalidate-by-mode deletes exactly
the entries whose key's mode component equals the given mode and leaves
the other mode's entries untouched.  But the code tests
`internalKey.includes(":" + mode)`: the summary-mode entry of the location
whose canonical key is `id:detailed` (the resolver's output for the
external id `"detailed"`) contains `":detailed"` inside its LOCATION
component, so `invalidateModeGraphCache("detailed")` deletes it even
though its mode component is `summary`. -/
theorem c8_mode_invalidation_counterexample :
    locationKeyFromIdOrCoords (some "detailed") 0 0 = "id:detailed"
    ∧ "cache:" ++ cacheKeyGraph "id:detailed" GraphMode.summary none none "light"
        = "cache:graph:id:detailed:summary:light"
    ∧ Store.get [("cache:graph:id:detailed:summary:light", RawValue.garbage "entry")]
        "cache:graph:id:detailed:summary:light" = some (RawValue.garbage "entry")
    ∧ (invalidateModeGraphCache
        [("cache:graph:id:detailed:summary:light", RawValue.garbage "entry")]
        GraphMode.detailed).get "cache:graph:id:detailed:summary:light" = none := by
  exact ⟨by with_unfolding_all rfl, rfl, rfl, rfl⟩

theorem jsIncludes_of_middle (a mid b : String) :
    jsIncludes (a ++ mid ++ b) mid = true := by
  apply isInfixList_of_infix
  exact ⟨a.data, b.data, by simp [String.data_append]⟩

/-- C8 amended.  `invalidateModeGraphCache(mode)` removes exactly the
persisted entries whose storage key starts with `cache:graph:` and whose
internal key contains `":" + mode` as a SUBSTRING — a superset of the
entries whose mode component equals `mode` (third conjunct: every key the
graph key generator builds for `mode` is removed, whatever location,
palette, date or hash).  Entries not matching the substring test — in
particular other-mode entries whose remaining components avoid the
substring — are left unchanged. -/
theorem c8_mode_invalidation_amended (st : Store) (mode : GraphMode) (k : String) :
    ((jsStartsWith k "cache:graph:" && jsIncludes (jsDrop k 6) (":" ++ mode.str)) = true →
      (invalidateModeGraphCache st mode).get k = none)
    ∧ ((jsStartsWith k "cache:graph:" && jsIncludes (jsDrop k 6) (":" ++ mode.str)) = false →
      (invalidateModeGraphCache st mode).get k = st.get k)
    ∧ (∀ (loc targetDate dataHash paletteId : _),
        (invalidateModeGraphCache st mode).get
          ("cache:" ++ cacheKeyGraph loc mode targetDate dataHash paletteId) = none) := by
  refine ⟨fun h => ?_, fun h => ?_, fun loc targetDate dataHash paletteId => ?_⟩
  · apply Store.get_filterKeys_drop
    simp [h]
  · apply Store.get_filterKeys_keep
    simp [h]
  · obtain ⟨tail, htail⟩ : ∃ tail, cacheKeyGraph loc mode targetDate dataHash paletteId
        = "graph:" ++ loc ++ ":" ++ mode.str ++ (":" ++ paletteId ++ tail) := by
      unfold cacheKeyGraph
      match targetDate with
      | some d =>
        by_cases hd : d = ""
        · match dataHash with
          | some hsh =>
            by_cases hh : hsh = ""
            · exact ⟨"", by simp [hd, hh, String.append_assoc]⟩
            · exact ⟨":" ++ hsh, by simp [hd, hh, String.append_assoc]⟩
          | none => exact ⟨"", by simp [hd, String.append_assoc]⟩
        · exact ⟨":" ++ d, by simp [hd, String.append_assoc]⟩
      | none =>
        match dataHash with
        | some hsh =>
          by_cases hh : hsh = ""
          · exact ⟨"", by simp [hh, String.append_assoc]⟩
          · exact ⟨":" ++ hsh, by simp [hh, String.append_assoc]⟩
        | none => exact ⟨"", by simp [String.append_assoc]⟩
    apply Store.get_filterKeys_drop
    rw [htail]
    have hdata : ("cache:" ++ ("graph:" ++ loc ++ ":" ++ mode.str ++ (":" ++ paletteId ++ tail))).data
        = "cache:graph:".data ++ (loc.data ++ (":" ++ mode.str ++ (":" ++ paletteId ++ tail)).data) := by
      simp [String.data_append]
    have hstarts : jsStartsWith
        ("cache:" ++ ("graph:" ++ loc ++ ":" ++ mode.str ++ (":" ++ paletteId ++ tail)))
        "cache:graph:" = true := by
      rw [jsStartsWith, hdata]
      exact isPrefixList_self_append _ _
    have hdrop : jsDrop
        ("cache:" ++ ("graph:" ++ loc ++ ":" ++ mode.str ++ (":" ++ paletteId ++ tail))) 6
        = "graph:" ++ loc ++ ":" ++ mode.str ++ (":" ++ paletteId ++ tail) := by
      rw [String.ext_iff]
      show (("cache:" ++ _ : String)).data.drop 6 = _
      rw [String.data_append]
      exact List.drop_left "cache:".data _
    have hincl : jsIncludes
        ("graph:" ++ loc ++ ":" ++ mode.str ++ (":" ++ paletteId ++ tail))
        (":" ++ mode.str) = true := by
      have hre : ("graph:" ++ loc ++ ":" ++ mode.str ++ (":" ++ paletteId ++ tail) : String)
          = ("graph:" ++ loc) ++ (":" ++ mode.str) ++ (":" ++ paletteId ++ tail) := by
        simp [String.append_assoc]
      rw [hre]
      exact jsIncludes_of_middle _ _ _
    simp [hstarts, hdrop, hincl]

/-- Closed witness for C8's amended theorem: invalidating `detailed` on a
store holding one detailed entry and one summary entry (plus an unrelated
record) removes the detailed entry, keeps the summary entry and keeps the
unrelated record. -/
theorem c8_mode_invalidation_amended_witness :
    (invalidateModeGraphCache
        [("cache:graph:osm:1:detailed:light", RawValue.garbage "a"),
         ("cache:graph:osm:1:summary:light", RawValue.garbage "b"),
         ("favorite-locations", RawValue.garbage "c")] GraphMode.detailed).get
      "cache:graph:osm:1:detailed:light" = none
    ∧ (invalidateModeGraphCache
        [("cache:graph:osm:1:detailed:light", RawValue.garbage "a"),
         ("cache:graph:osm:1:summary:light", RawValue.garbage "b"),
         ("favorite-locations", RawValue.garbage "c")] GraphMode.detailed).get
      "cache:graph:osm:1:summary:light" = some (RawValue.garbage "b")
    ∧ (invalidateModeGraphCache
        [("cache:graph:osm:1:detailed:light", RawValue.garbage "a"),
         ("cache:graph:osm:1:summary:light", RawValue.garbage "b"),
         ("favorite-locations", RawValue.garbage "c")] GraphMode.detailed).get
      "favorite-locations" = some (RawValue.garbage "c") := by
  refine ⟨?_, ?_, ?_⟩
  · exact (c8_mode_invalidation_amended _ GraphMode.detailed _).1 (by decide)
  · have h := (c8_mode_invalidation_amended
      [("cache:graph:osm:1:detailed:light", RawValue.garbage "a"),
       ("cache:graph:osm:1:summary:light", RawValue.garbage "b"),
       ("favorite-locations", RawValue.garbage "c")] GraphMode.detailed
      "cache:graph:osm:1:summary:light").2.1 (by decide)
    rw [h]
    rfl
  · have h := (c8_mode_invalidation_amended
      [("cache:graph:osm:1:detailed:light", RawValue.garbage "a"),
       ("cache:graph:osm:1:summary:light", RawValue.garbage "b"),
       ("favorite-locations", RawValue.garbage "c")] GraphMode.detailed
      "favorite-locations").2.1 (by decide)
    rw [h]
    rfl

/-! ## C3: graph-cache validity checks -/

/-- Inversion of a generic-cache hit: a returned value comes from a stored,
well-shaped, within-TTL entry. -/
theorem getCached_some_inv (st : Store) (key : String) (ttl now : ℚ) (v : Json)
    (h : getCached st key ttl now = some v) :
    ∃ fs t0, st.get (cacheStorageKey key) = some (.json (.obj fs))
      ∧ lookupField "savedAtMs" fs = some (.num t0)
      ∧ now - t0 ≤ ttl
      ∧ lookupField "value" fs = some v := by
  unfold getCached at h
  split at h
  · exact absurd h (by simp)
  rename_i rv hv
  split at h
  · exact absurd h (by simp)
  rename_i hfalsy
  split at h
  · exact absurd h (by simp)
  rename_i j
  split at h
  rename_i fs
  · split at h
    rename_i t0 hf
    · split at h
      · exact absurd h (by simp)
      rename_i hage
      exact ⟨fs, t0, hv, hf, le_of_not_lt hage, h⟩
    · exact absurd h (by simp)
  · exact absurd h (by simp)

/-- C3. `getCachedGraph` returns a stored markdown value only when all the
validity conditions hold: the freshly recomputed data hash exists and the
cache key derives from it, the backing record is a well-shaped cache entry
whose age `now - savedAtMs` is within the graph TTL, the stored entry is a
truthy value whose `version` field equals the current schema version and
whose `dataHash` field equals the recomputed hash, and the returned value
is the entry's `markdown` field.  (The palette selects the cache KEY; the
hash is recomputed from series length, first/last timestamps, name, hour
count and the serialized sun-times.)  In particular — second conjunct —
caching a graph for a 10-entry series and requesting it with a 9-entry
series misses even at the very same instant (well within TTL), while —
third conjunct — requesting it with the same series hits. -/
theorem c3_graph_cache_validity :
    (∀ (graphTtl : ℚ) (graphVersion : String) (appearanceDark : Bool) (st : Store)
        (now : ℚ) (locationKey : String) (mode : GraphMode)
        (series : List TimeseriesEntry) (name : String) (hours : ℕ)
        (sunByDate : Option Json) (targetDate : Option String) (v : Json),
      getCachedGraph graphTtl graphVersion appearanceDark st now locationKey mode
          series name hours sunByDate targetDate = some v →
      ∃ h fs t0 entry,
        generateDataHash series name hours sunByDate = some h
        ∧ st.get (cacheStorageKey (generateGraphCacheKey appearanceDark locationKey mode
            targetDate (some h))) = some (.json (.obj fs))
        ∧ lookupField "savedAtMs" fs = some (.num t0)
        ∧ now - t0 ≤ graphTtl
        ∧ lookupField "value" fs = some entry
        ∧ jsTruthy entry = true
        ∧ jprop entry "version" = some (.str graphVersion)
        ∧ jprop entry "dataHash" = some (.str h)
        ∧ jprop entry "markdown" = some v)
    ∧ getCachedGraph 3600000 "v1" false
        (setCachedGraph "v1" false [] 0 "osm:1" .detailed (c3SeriesOfLen 10) "Oslo" 48 "MD"
          none none)
        0 "osm:1" .detailed (c3SeriesOfLen 9) "Oslo" 48 none none = none
    ∧ getCachedGraph 3600000 "v1" false
        (setCachedGraph "v1" false [] 0 "osm:1" .detailed (c3SeriesOfLen 10) "Oslo" 48 "MD"
          none none)
        0 "osm:1" .detailed (c3SeriesOfLen 10) "Oslo" 48 none none = some (.str "MD") := by
  refine ⟨?_, by with_unfolding_all rfl, by with_unfolding_all rfl⟩
  intro graphTtl graphVersion appearanceDark st now locationKey mode series name hours
    sunByDate targetDate v h
  unfold getCachedGraph at h
  split at h
  · exact absurd h (by simp)
  rename_i dataHash hh
  split at h
  · exact absurd h (by simp)
  rename_i cached hc
  split at h
  · exact absurd h (by simp)
  rename_i htr0
  split at h
  · exact absurd h (by simp)
  rename_i hver0
  split at h
  · exact absurd h (by simp)
  rename_i hhash0
  obtain ⟨fs, t0, hstore, hsaved, hage, hvalue⟩ := getCached_some_inv _ _ _ _ _ hc
  have htr : jsTruthy cached = true := by
    simpa using htr0
  have hver2 : (match jprop cached "version" with
      | some (.str s) => decide (s = graphVersion)
      | _ => false) = true := by
    simpa using hver0
  have hhash2 : (match jprop cached "dataHash" with
      | some (.str s) => decide (s = dataHash)
      | _ => false) = true := by
    simpa using hhash0
  have hver : jprop cached "version" = some (.str graphVersion) := by
    match hov : jprop cached "version" with
    | none => rw [hov] at hver2; simp at hver2
    | some .null | some (.bool _) | some (.num _) | some (.arr _) | some (.obj _) =>
      rw [hov] at hver2; simp at hver2
    | some (.str s) =>
      rw [hov] at hver2
      simp only [decide_eq_true_eq] at hver2
      rw [hver2]
  have hhash : jprop cached "dataHash" = some (.str dataHash) := by
    match hoh : jprop cached "dataHash" with
    | none => rw [hoh] at hhash2; simp at hhash2
    | some .null | some (.bool _) | some (.num _) | some (.arr _) | some (.obj _) =>
      rw [hoh] at hhash2; simp at hhash2
    | some (.str s) =>
      rw [hoh] at hhash2
      simp only [decide_eq_true_eq] at hhash2
      rw [hhash2]
  exact ⟨dataHash, fs, t0, cached, hh, hstore, hsaved, hage, hvalue, htr, hver, hhash, h⟩

/-- Closed witness for C3's universal part, extracting the validity facts
from the concrete round-trip hit. -/
theorem c3_graph_cache_validity_witness :
    ∃ h fs t0 entry,
      generateDataHash (c3SeriesOfLen 10) "Oslo" 48 none = some h
      ∧ (setCachedGraph "v1" false [] 0 "osm:1" .detailed (c3SeriesOfLen 10) "Oslo" 48 "MD"
          none none).get (cacheStorageKey (generateGraphCacheKey false "osm:1" .detailed
            none (some h))) = some (.json (.obj fs))
      ∧ lookupField "savedAtMs" fs = some (.num t0)
      ∧ (0 : ℚ) - t0 ≤ 3600000
      ∧ lookupField "value" fs = some entry
      ∧ jsTruthy entry = true
      ∧ jprop entry "version" = some (.str "v1")
      ∧ jprop entry "dataHash" = some (.str h)
      ∧ jprop entry "markdown" = some (.str "MD") :=
  c3_graph_cache_validity.1 3600000 "v1" false
    (setCachedGraph "v1" false [] 0 "osm:1" .detailed (c3SeriesOfLen 10) "Oslo" 48 "MD"
      none none)
    0 "osm:1" .detailed (c3SeriesOfLen 10) "Oslo" 48 none none (.str "MD")
    (by with_unfolding_all rfl)

/-! ## Favorites lemmas -/

theorem favKeyOf_canonicalFav (f : FavoriteLocation) :
    favKeyOf (canonicalFav f) = favKeyOf f := by
  show locationKeyFromIdOrCoords (some (favKeyOf f)) f.lat f.lon = favKeyOf f
  exact resolver_fixed_of_prefix _ _ _ (resolver_hasPrefix f.id f.lat f.lon)

theorem canonicalFav_of_fixed (f : FavoriteLocation) (h : f.id = some (favKeyOf f)) :
    canonicalFav f = f := by
  show { f with id := some (favKeyOf f) } = f
  rw [← h]

theorem migrateAux_eq_dedupFirst (l : List FavoriteLocation) (seen : List String) :
    (migrateAux l seen).1 = dedupFirst favKeyOf (l.map canonicalFav) seen := by
  induction l generalizing seen with
  | nil => rfl
  | cons f rest ih =>
    rw [List.map_cons, dedupFirst, favKeyOf_canonicalFav]
    by_cases hmem : favKeyOf f ∈ seen
    · rw [if_pos hmem]
      have hc : seen.contains (favKeyOf f) = true := by simpa using hmem
      simp only [migrateAux, hc, if_pos, if_true]
      exact ih seen
    · rw [if_neg hmem]
      have hc : seen.contains (favKeyOf f) = false := by simpa using hmem
      simp only [migrateAux, hc, Bool.false_eq_true, if_false]
      exact congrArg (fun x => canonicalFav f :: x) (ih (favKeyOf f :: seen))

theorem dedupFirst_sublist {α κ : Type} [DecidableEq κ] (key : α → κ)
    (l : List α) (seen : List κ) : (dedupFirst key l seen).Sublist l := by
  induction l generalizing seen with
  | nil => simp [dedupFirst]
  | cons a as ih =>
    by_cases h : key a ∈ seen
    · simp only [dedupFirst, if_pos h]
      exact (ih seen).trans (List.sublist_cons_self a as)
    · simp only [dedupFirst, if_neg h]
      exact List.Sublist.cons₂ a (ih _)

theorem dedupFirst_nodup {α κ : Type} [DecidableEq κ] (key : α → κ)
    (l : List α) (seen : List κ) :
    ((dedupFirst key l seen).map key).Nodup
      ∧ ∀ k ∈ (dedupFirst key l seen).map key, k ∉ seen := by
  induction l generalizing seen with
  | nil => simp [dedupFirst]
  | cons a as ih =>
    by_cases h : key a ∈ seen
    · simp only [dedupFirst, if_pos h]
      exact ih seen
    · simp only [dedupFirst, if_neg h, List.map_cons, List.nodup_cons]
      obtain ⟨hnd, hout⟩ := ih (key a :: seen)
      refine ⟨⟨fun hmem => ?_, hnd⟩, fun k hk hkseen => ?_⟩
      · exact hout _ hmem (List.mem_cons_self _ _)
      · rcases List.mem_cons.1 hk with hk1 | hk2
        · exact h (hk1 ▸ hkseen)
        · exact hout _ hk2 (List.mem_cons_of_mem _ hkseen)

theorem migrateAux_changed_false (l : List FavoriteLocation) (seen : List String)
    (h : (migrateAux l seen).2 = false) : (migrateAux l seen).1 = l := by
  induction l generalizing seen with
  | nil => rfl
  | cons f rest ih =>
    by_cases hmem : favKeyOf f ∈ seen
    · simp [migrateAux, hmem] at h
    · have hc : seen.contains (favKeyOf f) = false := by simpa using hmem
      simp only [migrateAux, hc, Bool.false_eq_true, if_false, Bool.or_eq_false_iff,
        decide_eq_false_iff_not, not_not] at h ⊢
      obtain ⟨hid, hrest⟩ := h
      rw [show { f with id := some (favKeyOf f) } = f from canonicalFav_of_fixed f hid,
        ih _ hrest]

theorem rawFavOfJson_encode (f : FavoriteLocation) :
    rawFavOfJson (encodeFav f) = .ok (f.id, f.name, some f.lat, some f.lon) := by
  cases hid : f.id <;>
    simp [encodeFav, rawFavOfJson, jprop, lookupField, hid, jsToString, jsToNumber]

theorem filterMap_raws (l : List FavoriteLocation) :
    (l.map (fun f => (f.id, f.name, some f.lat, some f.lon))).filterMap
      (fun r =>
        match r with
        | (id, name, some lat, some lon) =>
          some (⟨id, name, lat, lon⟩ : FavoriteLocation)
        | _ => none) = l := by
  induction l with
  | nil => rfl
  | cons f rest ih => simp [List.filterMap_cons, ih]

theorem loadFavorites_encode (l : List FavoriteLocation) :
    loadFavorites (l.map encodeFav) = .ok l := by
  have haux : loadFavoritesAux (l.map encodeFav)
      = .ok (l.map (fun f => (f.id, f.name, some f.lat, some f.lon))) := by
    induction l with
    | nil => rfl
    | cons f rest ih => simp [loadFavoritesAux, rawFavOfJson_encode, ih]
  simp only [loadFavorites, haux, Except.map, filterMap_raws]

theorem getFavorites_encoded (st : Store) (l : List FavoriteLocation)
    (h : st.get favoritesStorageKey = some (.json (favListJson l))) :
    getFavorites st = ((migrateAux l []).1,
      if (migrateAux l []).2 = true then setFavorites st (migrateAux l []).1 else st) := by
  simp only [getFavorites, h, rawFalsy, Bool.false_eq_true, if_false, favListJson,
    loadFavorites_encode]
  by_cases hch : (migrateAux l []).2 = true <;> simp [hch]

theorem goodList_migrateList (l : List FavoriteLocation) : goodList (migrateList l) := by
  have hd := migrateAux_eq_dedupFirst l []
  have hsub := dedupFirst_sublist favKeyOf (l.map canonicalFav) []
  have hnd := (dedupFirst_nodup favKeyOf (l.map canonicalFav) []).1
  have hmem : ∀ f ∈ migrateList l, ∃ g, f = canonicalFav g := by
    intro f hf
    rw [migrateList, hd] at hf
    have := hsub.mem hf
    rcases List.mem_map.1 this with ⟨g, -, rfl⟩
    exact ⟨g, rfl⟩
  refine ⟨fun f hf => ?_, fun f hf => ?_, ?_⟩
  · rcases hmem f hf with ⟨g, rfl⟩
    show some (favKeyOf g) = some (favKeyOf (canonicalFav g))
    rw [favKeyOf_canonicalFav]
  · rcases hmem f hf with ⟨g, rfl⟩
    rw [favKeyOf_canonicalFav]
    exact resolver_hasPrefix g.id g.lat g.lon
  · rw [migrateList, hd]
    exact hnd

theorem migrateAux_of_good (l : List FavoriteLocation)
    (hid : ∀ f ∈ l, f.id = some (favKeyOf f)) (hnd : (l.map favKeyOf).Nodup) :
    ∀ seen : List String, (∀ k ∈ l.map favKeyOf, k ∉ seen) →
      migrateAux l seen = (l, false) := by
  induction l with
  | nil => intro seen _; rfl
  | cons f rest ih =>
    intro seen hseen
    have hnotin : favKeyOf f ∉ seen := hseen (favKeyOf f) (by simp)
    have hcontains : seen.contains (favKeyOf f) = false := by simpa using hnotin
    have hfid : f.id = some (favKeyOf f) := hid f (by simp)
    simp only [List.map_cons, List.nodup_cons] at hnd
    have hrest : migrateAux rest (favKeyOf f :: seen) = (rest, false) := by
      refine ih (fun g hg => hid g (List.mem_cons_of_mem _ hg)) hnd.2 (favKeyOf f :: seen) ?_
      intro k hk hkmem
      rcases List.mem_cons.1 hkmem with h1 | h2
      · exact hnd.1 (h1 ▸ hk)
      · exact hseen k (List.mem_cons_of_mem _ hk) h2
    have hstep : migrateAux (f :: rest) seen
        = ({ f with id := some (favKeyOf f) } :: (migrateAux rest (favKeyOf f :: seen)).1,
            decide (f.id ≠ some (favKeyOf f)) || (migrateAux rest (favKeyOf f :: seen)).2) := by
      simp only [migrateAux, hcontains, Bool.false_eq_true, if_false]
    rw [hstep, hrest, show { f with id := some (favKeyOf f) } = f from
      canonicalFav_of_fixed f hfid]
    simp [hfid]

/-! ## C2: getFavorites migration -/

/-- C2.  For every persisted favorites list (entries with finite
coordinates, arbitrary ids and names), `getFavorites()` returns exactly
the spec-side "first wins" de-duplication of the canonically-rewritten
entries: every returned id is the entry's own canonical key, no two
returned entries share a canonical key, the surviving entries keep the
first occurrence's data in the original relative order (a sublist of the
rewritten input), and the store ends up holding the serialization of
exactly the returned list — re-persisted when the migration changed
anything, untouched otherwise (in which case it already held that
serialization). -/
theorem c2_getFavorites_migration (st : Store) (l : List FavoriteLocation)
    (h : st.get favoritesStorageKey = some (.json (favListJson l))) :
    (getFavorites st).1 = dedupFirst favKeyOf (l.map canonicalFav) []
    ∧ (∀ f ∈ (getFavorites st).1, f.id = some (favKeyOf f))
    ∧ ((getFavorites st).1.map favKeyOf).Nodup
    ∧ (getFavorites st).1.Sublist (l.map canonicalFav)
    ∧ (getFavorites st).2.get favoritesStorageKey
        = some (.json (favListJson (getFavorites st).1)) := by
  have henc := getFavorites_encoded st l h
  have hout : (getFavorites st).1 = migrateList l := congrArg Prod.fst henc
  have hsnd : (getFavorites st).2
      = if (migrateAux l []).2 = true then setFavorites st (migrateAux l []).1 else st :=
    congrArg Prod.snd henc
  have hgood := goodList_migrateList l
  refine ⟨?_, ?_, ?_, ?_, ?_⟩
  · rw [hout, migrateList, migrateAux_eq_dedupFirst]
  · rw [hout]; exact hgood.1
  · rw [hout]; exact hgood.2.2
  · rw [hout, migrateList, migrateAux_eq_dedupFirst]
    exact dedupFirst_sublist favKeyOf (l.map canonicalFav) []
  · rw [hsnd, hout]
    by_cases hch : (migrateAux l []).2 = true
    · rw [if_pos hch]
      exact Store.get_set_self st favoritesStorageKey _
    · simp only [Bool.not_eq_true] at hch
      rw [if_neg (by simp [hch]), h,
        show migrateList l = l from migrateAux_changed_false l [] hch]

/-- Closed witness for C2: a stored list holding a stale raw-coordinate id,
its canonical duplicate and a distinct entry collapses to the two distinct
canonical entries, first occurrences preserved in order, and the collapsed
list is persisted. -/
theorem c2_getFavorites_migration_witness :
    (getFavorites [(favoritesStorageKey, .json (favListJson
        [⟨some "1,2", "A", 1, 2⟩, ⟨some "coord:1.000,2.000", "B", 1, 2⟩,
         ⟨some "osm:7", "C", 3, 4⟩]))]).1
      = [⟨some "coord:1.000,2.000", "A", 1, 2⟩, ⟨some "osm:7", "C", 3, 4⟩]
    ∧ (getFavorites [(favoritesStorageKey, .json (favListJson
        [⟨some "1,2", "A", 1, 2⟩, ⟨some "coord:1.000,2.000", "B", 1, 2⟩,
         ⟨some "osm:7", "C", 3, 4⟩]))]).2.get favoritesStorageKey
      = some (.json (favListJson
        [⟨some "coord:1.000,2.000", "A", 1, 2⟩, ⟨some "osm:7", "C", 3, 4⟩])) := by
  have h := c2_getFavorites_migration
    [(favoritesStorageKey, .json (favListJson
        [⟨some "1,2", "A", 1, 2⟩, ⟨some "coord:1.000,2.000", "B", 1, 2⟩,
         ⟨some "osm:7", "C", 3, 4⟩]))]
    [⟨some "1,2", "A", 1, 2⟩, ⟨some "coord:1.000,2.000", "B", 1, 2⟩,
     ⟨some "osm:7", "C", 3, 4⟩]
    (by rfl)
  refine ⟨?_, ?_⟩
  · rw [h.1]
    with_unfolding_all rfl
  · rw [h.2.2.2.2]
    have : (getFavorites [(favoritesStorageKey, .json (favListJson
        [⟨some "1,2", "A", 1, 2⟩, ⟨some "coord:1.000,2.000", "B", 1, 2⟩,
         ⟨some "osm:7", "C", 3, 4⟩]))]).1
      = [⟨some "coord:1.000,2.000", "A", 1, 2⟩, ⟨some "osm:7", "C", 3, 4⟩] := by
      rw [h.1]
      with_unfolding_all rfl
    rw [this]

/-! ## C10: canonical-form invariant of every favorites-store operation -/

theorem goodList_nil : goodList ([] : List FavoriteLocation) := by
  refine ⟨?_, ?_, ?_⟩ <;> simp [goodList]

theorem getFavorites_good (st : Store) :
    goodList (getFavorites st).1 ∧ persistsGood st (getFavorites st).2 := by
  unfold getFavorites
  split
  · exact ⟨goodList_nil, Or.inl rfl⟩
  rename_i rv hv
  split
  · exact ⟨goodList_nil, Or.inl rfl⟩
  rename_i hfalsy
  split
  · exact ⟨goodList_nil, Or.inl rfl⟩
  rename_i j
  split
  · rename_i items
    split
    · exact ⟨goodList_nil, Or.inl rfl⟩
    rename_i loaded hload
    split
    · rename_i hch
      exact ⟨goodList_migrateList loaded,
        Or.inr ⟨migrateList loaded, goodList_migrateList loaded,
          Store.get_set_self st favoritesStorageKey _⟩⟩
    · exact ⟨goodList_migrateList loaded, Or.inl rfl⟩
  · exact ⟨goodList_nil, Or.inl rfl⟩

theorem listSwap_adjacent_perm {α : Type} (l : List α) (i : ℕ) :
    (listSwap l i (i + 1)).Perm l := by
  induction i generalizing l with
  | zero =>
    match l with
    | [] => simp [listSwap]
    | [a] => simp [listSwap]
    | a :: b :: t =>
      have : listSwap (a :: b :: t) 0 1 = b :: a :: t := by
        simp [listSwap]
      rw [this]
      exact List.Perm.swap a b t
  | succ i ih =>
    match l with
    | [] => simp [listSwap]
    | a :: t =>
      match ht1 : t[i]?, ht2 : t[i + 1]? with
      | some x, some y =>
        have hswap : listSwap (a :: t) (i + 1) (i + 2) = a :: listSwap t i (i + 1) := by
          simp [listSwap, ht1, ht2, List.set]
        rw [hswap]
        exact (ih t).cons a
      | some x, none =>
        have hswap : listSwap (a :: t) (i + 1) (i + 2) = a :: t := by
          simp [listSwap, ht1, ht2]
        rw [hswap]
      | none, some y =>
        have hswap : listSwap (a :: t) (i + 1) (i + 2) = a :: t := by
          simp [listSwap, ht1, ht2]
        rw [hswap]
      | none, none =>
        have hswap : listSwap (a :: t) (i + 1) (i + 2) = a :: t := by
          simp [listSwap, ht1, ht2]
        rw [hswap]

theorem goodList_perm {l l2 : List FavoriteLocation} (hp : l.Perm l2) (h : goodList l) :
    goodList l2 := by
  obtain ⟨h1, h2, h3⟩ := h
  exact ⟨fun f hf => h1 f (hp.mem_iff.2 hf), fun f hf => h2 f (hp.mem_iff.2 hf),
    ((hp.map favKeyOf).nodup_iff).1 h3⟩

theorem goodList_sublist {l l2 : List FavoriteLocation} (hs : l2.Sublist l)
    (h : goodList l) : goodList l2 := by
  obtain ⟨h1, h2, h3⟩ := h
  exact ⟨fun f hf => h1 f (hs.mem hf), fun f hf => h2 f (hs.mem hf),
    h3.sublist (hs.map favKeyOf)⟩

/-- C10.  Canonical-form invariant: `getFavorites` returns a list whose
ids are all fixed points of the resolver carrying a canonical prefix, with
pairwise-distinct canonical keys; and every list any of the five
operations persists under `favorite-locations` (when it persists at all)
satisfies the same invariant. -/
theorem c10_favorites_canonical_invariant (st : Store) (fav : FavoriteLocation) :
    goodList (getFavorites st).1
    ∧ persistsGood st (getFavorites st).2
    ∧ persistsGood st (addFavorite st fav).2
    ∧ persistsGood st (removeFavorite st fav)
    ∧ persistsGood st (moveFavoriteUp st fav)
    ∧ persistsGood st (moveFavoriteDown st fav) := by
  obtain ⟨hgood, hpersist⟩ := getFavorites_good st
  have hmid : ∀ l : List FavoriteLocation, goodList l →
      persistsGood st (setFavorites (getFavorites st).2 l) := by
    intro l hl
    exact Or.inr ⟨l, hl, Store.get_set_self _ favoritesStorageKey _⟩
  refine ⟨hgood, hpersist, ?_, ?_, ?_, ?_⟩
  · -- addFavorite
    unfold addFavorite
    split
    · exact hpersist
    · rename_i hnodup
      refine hmid _ ⟨?_, ?_, ?_⟩
      · intro f hf
        rcases List.mem_append.1 hf with hf1 | hf2
        · exact hgood.1 f hf1
        · rw [List.mem_singleton.1 hf2]
          show some (favKeyOf fav) = some (favKeyOf (canonicalFav fav))
          rw [favKeyOf_canonicalFav]
      · intro f hf
        rcases List.mem_append.1 hf with hf1 | hf2
        · exact hgood.2.1 f hf1
        · rw [List.mem_singleton.1 hf2, favKeyOf_canonicalFav]
          exact resolver_hasPrefix fav.id fav.lat fav.lon
      · rw [List.map_append]
        rw [List.nodup_append]
        refine ⟨hgood.2.2, by simp, ?_⟩
        intro k hk
        simp only [List.map_cons, List.map_nil, List.mem_singleton]
        intro hkk
        apply hnodup
        rcases List.mem_map.1 hk with ⟨g, hg, rfl⟩
        refine List.any_eq_true.2 ⟨g, hg, ?_⟩
        simpa [sameLocation, favKeyOf_canonicalFav] using hkk
  · -- removeFavorite
    unfold removeFavorite
    exact hmid _ (goodList_sublist (List.filter_sublist _) hgood)
  · -- moveFavoriteUp
    unfold moveFavoriteUp
    split
    · rename_i i hfind
      split
      · rename_i hpos
        refine hmid _ (goodList_perm ?_ hgood)
        have hi : i - 1 + 1 = i := Nat.succ_pred_eq_of_pos hpos
        rw [show listSwap (getFavorites st).1 (i - 1) i
            = listSwap (getFavorites st).1 (i - 1) ((i - 1) + 1) by rw [hi]]
        exact (listSwap_adjacent_perm _ _).symm
      · exact hpersist
    · exact hpersist
  · -- moveFavoriteDown
    unfold moveFavoriteDown
    split
    · rename_i i hfind
      split
      · exact hmid _ (goodList_perm (listSwap_adjacent_perm _ _).symm hgood)
      · exact hpersist
    · exact hpersist

/-! ## C6: double-add -/

/-- C6 counterexample.  The claim quantifies over EVERY starting favorites
state; starting from a state that already contains the candidate, the
first `addFavorite` call returns `false`, not `true`. -/
theorem c6_add_twice_counterexample :
    (addFavorite [(favoritesStorageKey, .json (favListJson [⟨some "osm:1", "A", 1, 2⟩]))]
      ⟨some "osm:1", "A", 1, 2⟩).1 = false := by
  with_unfolding_all rfl

/-- C6 amended.  On a persisted list whose migrated form does not yet
contain the candidate's canonical key, `addFavorite` twice returns `true`
then `false`; the second call leaves the persisted store unchanged; the
first call persists exactly the migrated list with the canonical candidate
appended — one entry longer than the migrated list (the growth is measured
against the migrated list: the same read also collapses pre-existing
stale duplicates, so the raw stored length may shrink). -/
theorem c6_add_twice_amended (st : Store) (l : List FavoriteLocation)
    (fav : FavoriteLocation)
    (hstore : st.get favoritesStorageKey = some (.json (favListJson l)))
    (hnew : favKeyOf fav ∉ (migrateList l).map favKeyOf) :
    (addFavorite st fav).1 = true
    ∧ (addFavorite (addFavorite st fav).2 fav).1 = false
    ∧ (addFavorite (addFavorite st fav).2 fav).2 = (addFavorite st fav).2
    ∧ (addFavorite st fav).2.get favoritesStorageKey
        = some (.json (favListJson (migrateList l ++ [canonicalFav fav])))
    ∧ (migrateList l ++ [canonicalFav fav]).length = (migrateList l).length + 1 := by
  have hout : (getFavorites st).1 = migrateList l :=
    congrArg Prod.fst (getFavorites_encoded st l hstore)
  have hsame : ∀ g : FavoriteLocation, sameLocation g (canonicalFav fav) = true ↔
      favKeyOf g = favKeyOf fav := by
    intro g
    simp [sameLocation, favKeyOf_canonicalFav]
  have hany : (getFavorites st).1.any (fun f => sameLocation f (canonicalFav fav)) = false := by
    rw [hout]
    refine List.any_eq_false.2 (fun g hg hsg => ?_)
    exact hnew (List.mem_map.2 ⟨g, hg, ((hsame g).1 hsg).symm ▸ rfl⟩)
  have hr1 : addFavorite st fav
      = (true, setFavorites (getFavorites st).2 (migrateList l ++ [canonicalFav fav])) := by
    rw [addFavorite, hany]
    simp [hout]
  have hget1 : (addFavorite st fav).2.get favoritesStorageKey
      = some (.json (favListJson (migrateList l ++ [canonicalFav fav]))) := by
    rw [hr1]
    exact Store.get_set_self _ favoritesStorageKey _
  have hgoodm := goodList_migrateList l
  have hnewgood : ∀ f ∈ migrateList l ++ [canonicalFav fav], f.id = some (favKeyOf f) := by
    intro f hf
    rcases List.mem_append.1 hf with hf1 | hf2
    · exact hgoodm.1 f hf1
    · rw [List.mem_singleton.1 hf2]
      show some (favKeyOf fav) = some (favKeyOf (canonicalFav fav))
      rw [favKeyOf_canonicalFav]
  have hnewnodup : ((migrateList l ++ [canonicalFav fav]).map favKeyOf).Nodup := by
    rw [List.map_append, List.nodup_append]
    refine ⟨hgoodm.2.2, by simp, ?_⟩
    intro k hk
    simp only [List.map_cons, List.map_nil, List.mem_singleton, favKeyOf_canonicalFav]
    intro hkk
    exact hnew (hkk ▸ hk)
  have hmignew : migrateAux (migrateList l ++ [canonicalFav fav]) []
      = (migrateList l ++ [canonicalFav fav], false) :=
    migrateAux_of_good _ hnewgood hnewnodup [] (by simp)
  have hGF2 := getFavorites_encoded (addFavorite st fav).2 _ hget1
  rw [hmignew] at hGF2
  simp only [Bool.false_eq_true, if_false] at hGF2
  have hout2 : (getFavorites (addFavorite st fav).2).1 = migrateList l ++ [canonicalFav fav] :=
    congrArg Prod.fst hGF2
  have hsnd2 : (getFavorites (addFavorite st fav).2).2 = (addFavorite st fav).2 :=
    congrArg Prod.snd hGF2
  have hany2 : (getFavorites (addFavorite st fav).2).1.any
      (fun f => sameLocation f (canonicalFav fav)) = true := by
    rw [hout2]
    refine List.any_eq_true.2 ⟨canonicalFav fav, by simp, ?_⟩
    exact (hsame (canonicalFav fav)).2 (favKeyOf_canonicalFav fav)
  have hr2 : addFavorite (addFavorite st fav).2 fav
      = (false, (getFavorites (addFavorite st fav).2).2) := by
    rw [addFavorite, hany2]
    simp
  refine ⟨by rw [hr1], by rw [hr2], by rw [hr2]; exact hsnd2, hget1, by simp⟩

/-- Closed witness for C6's amended theorem: adding a fresh coordinate
favorite to a one-entry store succeeds then no-ops. -/
theorem c6_add_twice_amended_witness :
    (addFavorite [(favoritesStorageKey, .json (favListJson [⟨some "osm:7", "C", 3, 4⟩]))]
      ⟨none, "O", 1, 2⟩).1 = true
    ∧ (addFavorite (addFavorite
        [(favoritesStorageKey, .json (favListJson [⟨some "osm:7", "C", 3, 4⟩]))]
        ⟨none, "O", 1, 2⟩).2 ⟨none, "O", 1, 2⟩).1 = false := by
  have h := c6_add_twice_amended
    [(favoritesStorageKey, .json (favListJson [⟨some "osm:7", "C", 3, 4⟩]))]
    [⟨some "osm:7", "C", 3, 4⟩] ⟨none, "O", 1, 2⟩ (by rfl)
    (by with_unfolding_all decide)
  exact ⟨h.1, h.2.1⟩

/-! ## C4: retry policy of the shared request helper -/

theorem fetchGo_spec (attempts : ℕ → FetchResult) (retries : ℕ) (d : ℚ) :
    ∀ (fuel a : ℕ), a ≤ retries → a + fuel = retries + 1 →
      1 ≤ (fetchGo attempts retries d a fuel).used
      ∧ a + (fetchGo attempts retries d a fuel).used ≤ retries + 1
      ∧ (fetchGo attempts retries d a fuel).delays
          = (List.range ((fetchGo attempts retries d a fuel).used - 1)).map
              (fun j => d * 2 ^ (a + j))
      ∧ (∀ i, i + 1 < (fetchGo attempts retries d a fuel).used →
          retryableOutcome (attempts (a + i)) = true)
      ∧ (a + (fetchGo attempts retries d a fuel).used < retries + 1 →
          retryableOutcome (attempts (a + (fetchGo attempts retries d a fuel).used - 1))
            = false)
      ∧ (fetchGo attempts retries d a fuel).result
          = outcomeToResult (attempts (a + (fetchGo attempts retries d a fuel).used - 1)) := by
  intro fuel
  induction fuel with
  | zero => intro a ha hsum; omega
  | succ fuel ih =>
    intro a ha hsum
    have hretryStep : ∀ (r : RunOut), 1 ≤ r.used →
        (a + 1 ≤ retries → a + 1 + fuel = retries + 1 →
          retryableOutcome (attempts a) = true →
          r = fetchGo attempts retries d (a + 1) fuel →
          1 ≤ r.used + 1
          ∧ a + (r.used + 1) ≤ retries + 1
          ∧ d * 2 ^ a :: r.delays
              = (List.range (r.used + 1 - 1)).map (fun j => d * 2 ^ (a + j))
          ∧ (∀ i, i + 1 < r.used + 1 → retryableOutcome (attempts (a + i)) = true)
          ∧ (a + (r.used + 1) < retries + 1 →
              retryableOutcome (attempts (a + (r.used + 1) - 1)) = false)
          ∧ r.result = outcomeToResult (attempts (a + (r.used + 1) - 1))) := by
      intro r hr1 ha1 hsum1 hretr hreq
      obtain ⟨ih1, ih2, ih3, ih4, ih5, ih6⟩ := ih (a + 1) ha1 hsum1
      rw [← hreq] at ih1 ih2 ih3 ih4 ih5 ih6
      refine ⟨by omega, by omega, ?_, ?_, ?_, ?_⟩
      · have hu : r.used + 1 - 1 = (r.used - 1) + 1 := by omega
        rw [hu, List.range_succ_eq_map, List.map_cons, List.map_map, ih3]
        refine congrArg₂ _ (by simp) ?_
        refine congrArg (fun fn => List.map fn (List.range (r.used - 1)))
          (funext fun j => ?_)
        show d * 2 ^ (a + 1 + j) = d * 2 ^ (a + (j + 1))
        rw [show a + 1 + j = a + (j + 1) from by omega]
      · intro i hi
        match i with
        | 0 => simpa using hretr
        | i' + 1 =>
          rw [show a + (i' + 1) = a + 1 + i' from by omega]
          exact ih4 i' (by omega)
      · intro hlt
        rw [show a + (r.used + 1) - 1 = a + 1 + r.used - 1 from by omega]
        exact ih5 (by omega)
      · rw [ih6, show a + 1 + r.used - 1 = a + (r.used + 1) - 1 from by omega]
    match h : attempts a with
    | .ok v =>
      have hg : fetchGo attempts retries d a (fuel + 1) = ⟨.ok v, 1, []⟩ := by
        simp [fetchGo, h]
      rw [hg]
      refine ⟨by simp, by simp; omega, by simp, fun i hi => by simp at hi,
        fun _ => ?_, ?_⟩
      · simp [show a + 1 - 1 = a from by omega, h, retryableOutcome]
      · simp [show a + 1 - 1 = a from by omega, h, outcomeToResult]
    | .timeout =>
      have hg : fetchGo attempts retries d a (fuel + 1) = ⟨.error .aborted, 1, []⟩ := by
        simp [fetchGo, h]
      rw [hg]
      refine ⟨by simp, by simp; omega, by simp, fun i hi => by simp at hi,
        fun _ => ?_, ?_⟩
      · simp [show a + 1 - 1 = a from by omega, h, retryableOutcome]
      · simp [show a + 1 - 1 = a from by omega, h, outcomeToResult]
    | .httpError status txt =>
      by_cases hcond : a < retries ∧ shouldRetryStatus status = true
      · have hg : fetchGo attempts retries d a (fuel + 1)
            = ⟨(fetchGo attempts retries d (a + 1) fuel).result,
               (fetchGo attempts retries d (a + 1) fuel).used + 1,
               d * 2 ^ a :: (fetchGo attempts retries d (a + 1) fuel).delays⟩ := by
          simp [fetchGo, h, hcond.1, hcond.2]
        have hstep := hretryStep (fetchGo attempts retries d (a + 1) fuel)
          (ih (a + 1) (by omega) (by omega)).1 (by omega) (by omega)
          (by simp [retryableOutcome, h, hcond.2]) rfl
        rw [hg]
        exact hstep
      · have hg : fetchGo attempts retries d a (fuel + 1)
            = ⟨.error (.http status), 1, []⟩ := by
          have : ¬((a < retries) && shouldRetryStatus status) = true := by
            simp only [Bool.and_eq_true, decide_eq_true_eq]
            exact hcond
          simp [fetchGo, h, this]
        rw [hg]
        refine ⟨by simp, by simp; omega, by simp, fun i hi => by simp at hi,
          fun hlt => ?_, ?_⟩
        · simp only [RunOut.used] at hlt
          have hnr : shouldRetryStatus status = false := by
            rcases Bool.eq_false_or_eq_true (shouldRetryStatus status) with ht | hf
            · exact absurd ⟨by omega, ht⟩ hcond
            · exact hf
          simp [show a + 1 - 1 = a from by omega, h, retryableOutcome, hnr]
        · simp [show a + 1 - 1 = a from by omega, h, outcomeToResult]
    | .networkError msg =>
      by_cases hlt : a < retries
      · have hg : fetchGo attempts retries d a (fuel + 1)
            = ⟨(fetchGo attempts retries d (a + 1) fuel).result,
               (fetchGo attempts retries d (a + 1) fuel).used + 1,
               d * 2 ^ a :: (fetchGo attempts retries d (a + 1) fuel).delays⟩ := by
          simp [fetchGo, h, hlt]
        have hstep := hretryStep (fetchGo attempts retries d (a + 1) fuel)
          (ih (a + 1) (by omega) (by omega)).1 (by omega) (by omega)
          (by simp [retryableOutcome, h]) rfl
        rw [hg]
        exact hstep
      · have hg : fetchGo attempts retries d a (fuel + 1)
            = ⟨.error (.network msg), 1, []⟩ := by
          simp [fetchGo, h, hlt]
        rw [hg]
        refine ⟨by simp, by simp; omega, by simp, fun i hi => by simp at hi,
          fun hcontra => ?_, ?_⟩
        · simp only [RunOut.used] at hcontra
          omega
        · simp [show a + 1 - 1 = a from by omega, h, outcomeToResult]

/-- C4 counterexample.  The claim says a failed attempt is retried whenever
the failure is a timeout (within budget).  With a retry budget of 1 and an
oracle whose first attempt times out while the second would succeed, the
helper performs exactly one attempt and surfaces the abort error at once:
the timeout fires the internal `AbortController`, the rejection carries
`AbortError`, and the catch block rethrows every abort without retrying. -/
theorem c4_timeout_not_retried_counterexample :
    (fetchJsonWithRetry c4TimeoutThenOk 1 500).result = .error .aborted
    ∧ (fetchJsonWithRetry c4TimeoutThenOk 1 500).used = 1
    ∧ c4TimeoutThenOk 1 = .ok (.str "payload") := by
  exact ⟨rfl, rfl, rfl⟩

/-- C4 amended.  For every attempt oracle, retry budget and base delay:
the helper performs between 1 and `retries + 1` attempts; it sleeps the
exponentially growing delays `d·2^0, d·2^1, …` before each retry; every
attempt that was followed by a retry failed retryably — an HTTP 429 or
5xx, or a status-less non-abort network failure — so a timeout (an abort
rejection), a success, or any other 4xx is never retried; if the loop
stopped with budget remaining, the final attempt's outcome was
non-retryable; and the surfaced result is exactly the final attempt's
outcome, so a retryable error is surfaced only once the budget is
exhausted. -/
theorem c4_retry_policy_amended (attempts : ℕ → FetchResult) (retries : ℕ) (d : ℚ) :
    1 ≤ (fetchJsonWithRetry attempts retries d).used
    ∧ (fetchJsonWithRetry attempts retries d).used ≤ retries + 1
    ∧ (fetchJsonWithRetry attempts retries d).delays
        = (List.range ((fetchJsonWithRetry attempts retries d).used - 1)).map
            (fun j => d * 2 ^ j)
    ∧ (∀ i, i + 1 < (fetchJsonWithRetry attempts retries d).used →
        retryableOutcome (attempts i) = true)
    ∧ ((fetchJsonWithRetry attempts retries d).used < retries + 1 →
        retryableOutcome (attempts ((fetchJsonWithRetry attempts retries d).used - 1))
          = false)
    ∧ (fetchJsonWithRetry attempts retries d).result
        = outcomeToResult (attempts ((fetchJsonWithRetry attempts retries d).used - 1)) := by
  obtain ⟨h1, h2, h3, h4, h5, h6⟩ :=
    fetchGo_spec attempts retries d (retries + 1) 0 (Nat.zero_le _) (by omega)
  refine ⟨h1, by simpa using h2, by simpa using h3, fun i hi => by simpa using h4 i hi,
    fun hlt => by simpa using h5 (by simpa using hlt), by simpa using h6⟩

/-- Closed witness for C4's amended theorem: one retryable 500 followed by
a success gives two attempts, one backoff delay of `d·2^0`, and the
successful payload. -/
theorem c4_retry_policy_amended_witness :
    retryableOutcome ((fun i => if i = 0 then FetchResult.httpError 500 "Server Error"
        else FetchResult.ok (.str "data")) 0) = true
    ∧ (fetchJsonWithRetry (fun i => if i = 0 then FetchResult.httpError 500 "Server Error"
        else FetchResult.ok (.str "data")) 1 500).result
      = outcomeToResult ((fun i => if i = 0 then FetchResult.httpError 500 "Server Error"
        else FetchResult.ok (.str "data"))
          ((fetchJsonWithRetry (fun i => if i = 0 then FetchResult.httpError 500 "Server Error"
            else FetchResult.ok (.str "data")) 1 500).used - 1)) := by
  constructor
  · exact (c4_retry_policy_amended (fun i => if i = 0 then FetchResult.httpError 500 "Server Error"
      else FetchResult.ok (.str "data")) 1 500).2.2.2.1 0 (by with_unfolding_all decide)
  · exact (c4_retry_policy_amended (fun i => if i = 0 then FetchResult.httpError 500 "Server Error"
      else FetchResult.ok (.str "data")) 1 500).2.2.2.2.2
